import Mathlib

/-!
# Projectile trajectory and combat-resolution engine: shallow embedding

A shallow embedding of `src/projectile_system.py` (`Projectile`,
`ProjectileManager`) from the Magic Survivor repository, together with the
enemy interface it consumes (`Enemy.take_damage` from `src/enemy_system.py`).

Modelling conventions:

* Python floats are modelled as exact rationals (`ℚ`).
* `math.sqrt`, `math.cos`, `math.sin`, `math.atan2` and `math.pi` are modelled
  by an explicit parameter `TrigModel` carried through every function that the
  source feeds through those library routines.  The only property of the model
  any theorem needs is that the square root of a positive number is positive
  (`sqrt_pos`), which every faithful interpretation satisfies.  Theorems are
  stated for all such models, so they hold in particular for the real-valued
  interpretation.
* `pygame.Rect` stores integer coordinates; `int(x)` in Python truncates
  toward zero, and pygame's C arithmetic on rect fields uses C integer
  division, which also truncates toward zero.  Both are modelled by `Int.tdiv`.
* Python dictionaries of trajectory properties are modelled by a record of
  `Option` fields (`none` = key absent); `dict.get(k, d)` becomes `getD`.
* The infinite default `float('inf')` of `growth_duration` is modelled by
  `Option ℚ` with `none` standing for `+∞`.
* Enemies in this repository always carry an integer `id` attribute
  (`enemy_system.py` sets `self.id`), so `getattr(enemy, 'id', None)` is
  modelled as `some e.id`.
-/

/-- Truncation toward zero of a rational, the behaviour of Python `int(x)`
on the float values this engine produces. -/
def pyInt (q : ℚ) : ℤ := Int.tdiv q.num (q.den : ℤ)

/-- A pygame rectangle: integer left/top corner plus width and height. -/
structure PRect where
  left : ℤ
  top : ℤ
  w : ℤ
  h : ℤ
deriving DecidableEq

/-- `rect.centerx`: pygame computes `left + w / 2` with C integer division. -/
def PRect.centerx (r : PRect) : ℤ := r.left + Int.tdiv r.w 2

/-- `rect.centery`. -/
def PRect.centery (r : PRect) : ℤ := r.top + Int.tdiv r.h 2

/-- Build a rect of size `w × h` whose center is `(cx, cy)`, as pygame's
`get_rect(center=...)` and the `rect.center` setter do. -/
def mkRectCenter (cx cy w h : ℤ) : PRect :=
  ⟨cx - Int.tdiv w 2, cy - Int.tdiv h 2, w, h⟩

/-- Reposition a rect (keeping its size) so its center is `(cx, cy)`:
the `rect.center = (cx, cy)` assignment. -/
def PRect.setCenter (r : PRect) (cx cy : ℤ) : PRect :=
  mkRectCenter cx cy r.w r.h

/-- `rect.inflate(ix, iy)`: grow around the current position. -/
def PRect.inflate (r : PRect) (ix iy : ℤ) : PRect :=
  ⟨r.left - Int.tdiv ix 2, r.top - Int.tdiv iy 2, r.w + ix, r.h + iy⟩

/-- `a.colliderect(b)`: strict overlap test of pygame. -/
def PRect.collide (a b : PRect) : Bool :=
  decide (a.left < b.left + b.w) && decide (a.left + a.w > b.left) &&
  decide (a.top < b.top + b.h) && decide (a.top + a.h > b.top)

/-- Interpretation of the real-valued library functions the source calls
(`math.sqrt`, `math.cos`, `math.sin`, `math.atan2`, `math.pi`).  The
theorems below hold for every interpretation with a sign-preserving square
root, hence for the actual real-valued one. -/
structure TrigModel where
  cos : ℚ → ℚ
  sin : ℚ → ℚ
  atan2 : ℚ → ℚ → ℚ
  pi : ℚ
  sqrt : ℚ → ℚ
  sqrt_pos : ∀ q : ℚ, 0 < q → 0 < sqrt q

/-- A trivial interpretation, used to instantiate universally quantified
theorems at concrete inputs. -/
def T0 : TrigModel where
  cos := fun _ => 0
  sin := fun _ => 0
  atan2 := fun _ _ => 0
  pi := 0
  sqrt := fun q => if 0 < q then 1 else 0
  sqrt_pos := by
    intro q h
    simp [h]

/-- The slice of an enemy this engine consumes: stable identity, active flag,
bounding rect, and hit points mutated by `take_damage`. -/
structure Enemy where
  id : ℤ
  active : Bool
  rect : PRect
  current_hp : ℚ
deriving DecidableEq

/-- `Enemy.take_damage` from `enemy_system.py`: subtracts the amount from
`current_hp` (the health-bar redraw and the returned liveness boolean have no
effect on this engine). -/
def Enemy.takeDamage (e : Enemy) (amount : ℚ) : Enemy :=
  { e with current_hp := e.current_hp - amount }

/-- The owner (caster) slice the engine consumes: a bounding rect. -/
structure Owner where
  rect : PRect
deriving DecidableEq

/-- The `trajectory_properties` dictionary: `none` = key absent. -/
structure TrajProps where
  type_ : Option String := none
  radius : Option ℚ := none
  homing_strength : Option ℚ := none
  orbit_radius : Option ℚ := none
  angular_speed : Option ℚ := none
  duration : Option ℚ := none
  initial_angle : Option ℚ := none
  amplitude : Option ℚ := none
  frequency : Option ℚ := none
  max_chains : Option ℕ := none
  chain_radius : Option ℚ := none
  pierce_count : Option ℕ := none
  raw_target_x : Option ℚ := none
  raw_target_y : Option ℚ := none
  travel_speed : Option ℚ := none
  aoe_radius : Option ℚ := none
  aoe_damage : Option ℚ := none
  aoe_duration : Option ℚ := none
  delay_after_arrival : Option ℚ := none
  marker_radius : Option ℚ := none
  fork_condition_type : Option String := none
  fork_condition_value : Option ℚ := none
  fork_count : Option ℕ := none
  fork_angle_spread : Option ℚ := none
  child_spell_id : Option String := none
  expansion_speed : Option ℚ := none
  rotation_speed : Option ℚ := none
  base_travel_speed : Option ℚ := none
  initial_radius : Option ℚ := none
  max_radius : Option ℚ := none
  growth_rate : Option ℚ := none
  growth_duration : Option ℚ := none
deriving DecidableEq

/-- A child-spawn request produced by a FORKING projectile.  The source stores
a dummy target point `(x + cos θ · 100, y + sin θ · 100)`; the manager then
renormalizes `target - start`, recovering exactly `(cos θ, sin θ)`.  The
request therefore carries the fork angle `θ` (in radians), the lossless
representation of that round trip. -/
structure ChildReq where
  owner : Option Owner
  spell_id : String
  start_x : ℚ
  start_y : ℚ
  angle : ℚ
deriving DecidableEq

/-- One entry of the spell catalogue consumed when instantiating children
(`DataHandler.load_spells()` record: `damage`, `speed`, `range`,
`trajectory_properties`, each possibly absent). -/
structure SpellDef where
  damage : Option ℚ := none
  speed : Option ℚ := none
  range_ : Option ℚ := none
  trajectory_properties : Option TrajProps := none
deriving DecidableEq

/-- The `Projectile` instance state.  Python only creates the per-kind
attributes relevant to the selected trajectory type; here every field exists
but carries an inert default, and is only read in the branches of the kind
that initialized it (mirroring the source's access pattern). -/
structure Projectile where
  owner : Option Owner
  x : ℚ
  y : ℚ
  dx : ℚ
  dy : ℚ
  damage : ℚ
  speed : ℚ
  range_ : ℚ
  projectile_type : String
  props : TrajProps
  trajectory_type : String
  rect : PRect
  distance_traveled : ℚ := 0
  active : Bool := true
  -- ORBITING / SPIRAL shared lifetime state
  orbit_radius : ℚ := 0
  angular_speed : ℚ := 0
  duration : ℚ := 0
  current_angle : ℚ := 0
  lifetime_timer : ℚ := 0
  -- SINE_WAVE
  amplitude : ℚ := 0
  frequency : ℚ := 0
  sine_wave_angle : ℚ := 0
  base_x : ℚ := 0
  base_y : ℚ := 0
  path_dx : ℚ := 0
  path_dy : ℚ := 0
  -- BOOMERANG
  returning : Bool := false
  initial_dx : ℚ := 0
  initial_dy : ℚ := 0
  -- CHAIN
  max_chains : ℕ := 0
  chain_radius_sq : ℚ := 0
  chain_count : ℕ := 0
  last_hit_enemy_id : Option ℤ := none
  homing_strength : ℚ := 0
  -- PIERCING
  pierce_count : ℕ := 0
  hit_enemies_count : ℕ := 0
  hit_enemy_ids : Finset ℤ := ∅
  -- GROUND_AOE
  target_x : ℚ := 0
  target_y : ℚ := 0
  travel_speed : ℚ := 0
  aoe_radius : ℚ := 0
  aoe_damage : ℚ := 0
  aoe_duration : ℚ := 0
  delay_after_arrival : ℚ := 0
  marker_radius : ℚ := 0
  aoe_state : String := ""
  arrival_timer : ℚ := 0
  explosion_timer : ℚ := 0
  aoe_damage_applied : Bool := false
  -- FORKING
  fork_condition_type : String := ""
  fork_condition_value : ℚ := 0
  fork_count : ℕ := 0
  fork_angle_spread_rad : ℚ := 0
  child_spell_id : Option String := none
  has_forked : Bool := false
  timer_for_fork : ℚ := 0
  fork_now_on_hit_signal : Bool := false
  -- SPIRAL
  expansion_speed : ℚ := 0
  rotation_speed_rad : ℚ := 0
  base_travel_speed : ℚ := 0
  initial_radius : ℚ := 0
  current_spiral_radius : ℚ := 0
  current_spiral_angle_rad : ℚ := 0
  center_x : ℚ := 0
  center_y : ℚ := 0
  base_dx : ℚ := 0
  base_dy : ℚ := 0
  -- GROWING_ORB
  max_radius : ℚ := 0
  growth_rate : ℚ := 0
  growth_duration : Option ℚ := none
  current_radius : ℚ := 0
  growth_active_timer : ℚ := 0

/-- ORBITING construction: orbit parameters and lifetime timer. -/
def initOrbiting (props : TrajProps) (base : Projectile) : Projectile :=
  { base with
    orbit_radius := props.orbit_radius.getD 75,
    angular_speed := props.angular_speed.getD 2,
    duration := props.duration.getD 10,
    current_angle := props.initial_angle.getD 0,
    lifetime_timer := 0 }

/-- SINE_WAVE construction: wave parameters and the stored base path. -/
def initSineWave (props : TrajProps) (base : Projectile) : Projectile :=
  { base with
    amplitude := props.amplitude.getD 30,
    frequency := props.frequency.getD 5,
    sine_wave_angle := 0,
    base_x := base.x, base_y := base.y,
    path_dx := base.dx, path_dy := base.dy }

/-- BOOMERANG construction: outward phase with the initial direction stored. -/
def initBoomerang (base : Projectile) : Projectile :=
  { base with returning := false, initial_dx := base.dx, initial_dy := base.dy }

/-- CHAIN construction: chain budget, squared chain radius, homing strength. -/
def initChain (props : TrajProps) (base : Projectile) : Projectile :=
  { base with
    max_chains := props.max_chains.getD 3,
    chain_radius_sq := (props.chain_radius.getD 150) ^ 2,
    chain_count := 0,
    last_hit_enemy_id := none,
    homing_strength := props.homing_strength.getD 0.1 }

/-- PIERCING construction: pierce budget and empty hit-identity set. -/
def initPiercing (props : TrajProps) (base : Projectile) : Projectile :=
  { base with
    pierce_count := props.pierce_count.getD 3,
    hit_enemies_count := 0,
    hit_enemy_ids := ∅ }

/-- GROUND_AOE construction: cast-target coordinates (with the directional
fallback), marker rect, and the traveling state; a zero-distance target skips
directly to `arrived`. -/
def initGroundAoe (T : TrigModel) (props : TrajProps) (base : Projectile) :
    Projectile :=
  let tx := props.raw_target_x.getD (base.x + base.dx * 1000)
  let ty := props.raw_target_y.getD (base.y + base.dy * 1000)
  let marker_radius := props.marker_radius.getD 6
  let withAoe : Projectile :=
    { base with
      target_x := tx, target_y := ty,
      travel_speed := props.travel_speed.getD 500,
      aoe_radius := props.aoe_radius.getD 75,
      aoe_damage := props.aoe_damage.getD 30,
      aoe_duration := props.aoe_duration.getD 0.2,
      delay_after_arrival := props.delay_after_arrival.getD 0.3,
      marker_radius := marker_radius,
      aoe_state := "traveling",
      arrival_timer := 0, explosion_timer := 0, aoe_damage_applied := false,
      rect := mkRectCenter (pyInt base.x) (pyInt base.y)
        (pyInt (marker_radius * 2)) (pyInt (marker_radius * 2)) }
  let dx_t := tx - base.x
  let dy_t := ty - base.y
  let dist := T.sqrt (dx_t ^ 2 + dy_t ^ 2)
  if 0 < dist then
    { withAoe with dx := dx_t / dist, dy := dy_t / dist }
  else
    { withAoe with
      dx := 0,
      dy := 0,
      aoe_state := "arrived",
      arrival_timer := withAoe.delay_after_arrival }

/-- FORKING construction: fork trigger, fan parameters (spread converted to
radians), optional child spell id. -/
def initForking (T : TrigModel) (props : TrajProps) (base : Projectile) :
    Projectile :=
  { base with
    fork_condition_type := props.fork_condition_type.getD "DISTANCE",
    fork_condition_value := props.fork_condition_value.getD 150,
    fork_count := props.fork_count.getD 3,
    fork_angle_spread_rad := (props.fork_angle_spread.getD 45) * T.pi / 180,
    child_spell_id := props.child_spell_id,
    has_forked := false, timer_for_fork := 0, fork_now_on_hit_signal := false }

/-- SPIRAL construction: spiral parameters and the moving center. -/
def initSpiral (T : TrigModel) (props : TrajProps) (base : Projectile) :
    Projectile :=
  let ir := props.initial_radius.getD 5
  { base with
    expansion_speed := props.expansion_speed.getD 40,
    rotation_speed_rad := (props.rotation_speed.getD 720) * T.pi / 180,
    base_travel_speed := props.base_travel_speed.getD 150,
    duration := props.duration.getD 1.5,
    initial_radius := ir,
    current_spiral_radius := ir,
    current_spiral_angle_rad := 0,
    lifetime_timer := 0,
    center_x := base.x, center_y := base.y,
    base_dx := base.dx, base_dy := base.dy }

/-- GROWING_ORB construction: growth parameters plus the radius-sized rect. -/
def initGrowingOrb (props : TrajProps) (base : Projectile) : Projectile :=
  let ir := props.initial_radius.getD 5
  let ri := max 1 (pyInt ir)
  { base with
    initial_radius := ir,
    max_radius := props.max_radius.getD 30,
    growth_rate := props.growth_rate.getD 10,
    growth_duration := props.growth_duration,
    current_radius := ir,
    growth_active_timer := 0,
    rect := mkRectCenter (pyInt base.x) (pyInt base.y) (ri * 2) (ri * 2) }

/-- `Projectile.__init__`: common fields, then the per-kind initialization
selected by the `type` property (defaulting to STRAIGHT, which needs no extra
state; so does HOMING). -/
def Projectile.init (T : TrigModel) (owner : Option Owner)
    (start_x start_y dx dy damage speed range_val : ℚ)
    (projectile_type : String) (props : TrajProps) : Projectile :=
  let ttype := props.type_.getD "STRAIGHT"
  let radius := props.radius.getD 5
  let base : Projectile :=
    { owner := owner, x := start_x, y := start_y, dx := dx, dy := dy,
      damage := damage, speed := speed, range_ := range_val,
      projectile_type := projectile_type, props := props,
      trajectory_type := ttype,
      rect := mkRectCenter (pyInt start_x) (pyInt start_y)
        (pyInt (radius * 2)) (pyInt (radius * 2)),
      distance_traveled := 0, active := true }
  if ttype = "ORBITING" then initOrbiting props base
  else if ttype = "SINE_WAVE" then initSineWave props base
  else if ttype = "BOOMERANG" then initBoomerang base
  else if ttype = "CHAIN" then initChain props base
  else if ttype = "PIERCING" then initPiercing props base
  else if ttype = "GROUND_AOE" then initGroundAoe T props base
  else if ttype = "FORKING" then initForking T props base
  else if ttype = "SPIRAL" then initSpiral T props base
  else if ttype = "GROWING_ORB" then initGrowingOrb props base
  else base

/-- Squared distance from a point to an enemy's rect center, as computed by
`(enemy.rect.centerx - self.x)**2 + (enemy.rect.centery - self.y)**2`. -/
def distSqTo (px py : ℚ) (e : Enemy) : ℚ :=
  ((e.rect.centerx : ℚ) - px) ^ 2 + ((e.rect.centery : ℚ) - py) ^ 2

/-- The nearest-enemy scan shared by the HOMING/CHAIN blocks: skip the enemy
whose id equals `skipId` (the CHAIN case passes `last_hit_enemy_id`, the
HOMING case passes `none`), skip inactive enemies, and keep the first
encountered enemy at minimal squared distance (`min_dist_sq` starts at
`float('inf')`, and only a strictly smaller distance replaces the candidate). -/
def findTarget (px py : ℚ) (skipId : Option ℤ) (enemies : List Enemy) :
    Option Enemy :=
  (enemies.foldl
    (fun (acc : Option (Enemy × ℚ)) e =>
      if skipId = some e.id then acc
      else if e.active = false then acc
      else
        let d := distSqTo px py e
        match acc with
        | none => some (e, d)
        | some (_, m) => if d < m then some (e, d) else acc)
    none).map Prod.fst

/-- The homing direction blend of the HOMING/CHAIN movement code: normalize
the vector to the target, mix it into the current direction with weight
`strength`, then renormalize (both normalizations guarded by
`magnitude > 0`). -/
def homingBlend (T : TrigModel) (p : Projectile) (strength : ℚ)
    (tgt : Option Enemy) : Projectile :=
  match tgt with
  | none => p
  | some t =>
    let tx0 := (t.rect.centerx : ℚ) - p.x
    let ty0 := (t.rect.centery : ℚ) - p.y
    let mag := T.sqrt (tx0 ^ 2 + ty0 ^ 2)
    let tx := if 0 < mag then tx0 / mag else tx0
    let ty := if 0 < mag then ty0 / mag else ty0
    let ndx0 := (1 - strength) * p.dx + strength * tx
    let ndy0 := (1 - strength) * p.dy + strength * ty
    let mag2 := T.sqrt (ndx0 ^ 2 + ndy0 ^ 2)
    let ndx := if 0 < mag2 then ndx0 / mag2 else ndx0
    let ndy := if 0 < mag2 then ndy0 / mag2 else ndy0
    { p with dx := ndx, dy := ndy }

/-- The shared straight-move assignment used by the common movement block and
by the BOOMERANG/CHAIN/PIERCING branches: advance the position along the
direction, recenter the rect, and accumulate `speed * dt` into the distance
accumulator. -/
def moveStep (p : Projectile) (dt : ℚ) : Projectile :=
  let x' := p.x + p.dx * p.speed * dt
  let y' := p.y + p.dy * p.speed * dt
  { p with
    x := x', y := y',
    rect := p.rect.setCenter (pyInt x') (pyInt y'),
    distance_traveled := p.distance_traveled + p.speed * dt }

/-- The common movement block at the top of `Projectile.update` (runs for all
trajectory types except ORBITING and GROUND_AOE): optional HOMING/CHAIN
direction blend, straight move, rect recenter, distance accumulation, and the
range check from which FORKING is exempted. -/
def commonMove (T : TrigModel) (p : Projectile) (dt : ℚ)
    (enemies : List Enemy) : Projectile :=
  if p.trajectory_type = "ORBITING" ∨ p.trajectory_type = "GROUND_AOE" then p
  else
    let pb :=
      if p.trajectory_type = "HOMING" ∨ p.trajectory_type = "CHAIN" then
        let strength :=
          if p.trajectory_type = "HOMING" then p.props.homing_strength.getD 0.05
          else p.homing_strength
        let skipId :=
          if p.trajectory_type = "CHAIN" then p.last_hit_enemy_id else none
        homingBlend T p strength (findTarget p.x p.y skipId enemies)
      else p
    let pm := moveStep pb dt
    if pm.distance_traveled > pm.range_ ∧ pm.trajectory_type ≠ "FORKING" then
      { pm with active := false }
    else pm

/-- The ORBITING branch of `Projectile.update`: requires a live owner,
lifetime timer against `duration`, position recomputed on the owner-centered
circle. -/
def orbitingBranch (T : TrigModel) (p : Projectile) (dt : ℚ)
    (enemies : List Enemy) :
    Projectile × List Enemy × Option (List ChildReq) :=
  match p.owner with
  | none => ({ p with active := false }, enemies, none)
  | some ow =>
    let lt := p.lifetime_timer + dt
    if lt > p.duration then
      ({ p with lifetime_timer := lt, active := false }, enemies, none)
    else
      let ang := p.current_angle + p.angular_speed * dt
      let x' := (ow.rect.centerx : ℚ) + T.cos ang * p.orbit_radius
      let y' := (ow.rect.centery : ℚ) + T.sin ang * p.orbit_radius
      ({ p with
         lifetime_timer := lt, current_angle := ang,
         x := x', y := y',
         rect := p.rect.setCenter (pyInt x') (pyInt y') }, enemies, none)

/-- The SINE_WAVE branch of `Projectile.update`: the base path advances along
the stored heading, the drawn position is offset perpendicularly by
`amplitude * sin(angle)`, and the (second) distance accumulation is checked
against the range. -/
def sineWaveBranch (T : TrigModel) (p : Projectile) (dt : ℚ)
    (enemies : List Enemy) :
    Projectile × List Enemy × Option (List ChildReq) :=
  let bx := p.base_x + p.path_dx * p.speed * dt
  let bY := p.base_y + p.path_dy * p.speed * dt
  let d' := p.distance_traveled + p.speed * dt
  let ang := p.sine_wave_angle + p.frequency * (p.speed * dt) * 0.1
  let off := p.amplitude * T.sin ang
  let x' := bx + (-p.path_dy) * off
  let y' := bY + p.path_dx * off
  let p' :=
    { p with
      base_x := bx, base_y := bY, distance_traveled := d',
      sine_wave_angle := ang, x := x', y := y',
      rect := p.rect.setCenter (pyInt x') (pyInt y') }
  (if d' > p.range_ then { p' with active := false } else p', enemies, none)

/-- The BOOMERANG branch of `Projectile.update`: outward phase turns around
(exact direction negation, accumulator reset) upon reaching the range; return
phase deactivates on overlap with the owner's inflated rect or beyond
`range * 1.5`. -/
def boomerangBranch (p : Projectile) (dt : ℚ) (enemies : List Enemy) :
    Projectile × List Enemy × Option (List ChildReq) :=
  if p.returning = false then
    let pm := moveStep p dt
    if pm.distance_traveled ≥ pm.range_ then
      ({ pm with
         returning := true, dx := -pm.dx, dy := -pm.dy,
         distance_traveled := 0 }, enemies, none)
    else (pm, enemies, none)
  else
    let pm := moveStep p dt
    let pc :=
      match pm.owner with
      | some ow =>
        if pm.rect.collide (ow.rect.inflate pm.rect.w pm.rect.h) then
          { pm with active := false }
        else pm
      | none => pm
    if pm.distance_traveled > pm.range_ * 1.5 then
      ({ pc with active := false }, enemies, none)
    else (pc, enemies, none)

/-- The CHAIN branch of `Projectile.update`: re-target and homing-blend (the
same scan and blend as the common block), move, accumulate distance (again)
and deactivate beyond the segment range. -/
def chainBranch (T : TrigModel) (p : Projectile) (dt : ℚ)
    (enemies : List Enemy) :
    Projectile × List Enemy × Option (List ChildReq) :=
  let pb := homingBlend T p p.homing_strength
    (findTarget p.x p.y p.last_hit_enemy_id enemies)
  let pm := moveStep pb dt
  (if pm.distance_traveled > pm.range_ then { pm with active := false }
   else pm, enemies, none)

/-- The PIERCING branch of `Projectile.update`: plain straight movement with
a (second) distance accumulation and range check; pierce bookkeeping lives in
`on_hit_enemy`. -/
def piercingBranch (p : Projectile) (dt : ℚ) (enemies : List Enemy) :
    Projectile × List Enemy × Option (List ChildReq) :=
  let pm := moveStep p dt
  (if pm.distance_traveled > pm.range_ then { pm with active := false }
   else pm, enemies, none)

/-- The GROUND_AOE branch of `Projectile.update`: the
traveling/arrived/exploding state machine.  Damage is applied to every active
enemy within the AOE radius exactly once per explosion, guarded by
`aoe_damage_applied`. -/
def groundAoeBranch (T : TrigModel) (p : Projectile) (dt : ℚ)
    (enemies : List Enemy) :
    Projectile × List Enemy × Option (List ChildReq) :=
  if p.aoe_state = "traveling" then
    let x' := p.x + p.dx * p.travel_speed * dt
    let y' := p.y + p.dy * p.travel_speed * dt
    let p' :=
      { p with
        x := x', y := y',
        rect := p.rect.setCenter (pyInt x') (pyInt y') }
    if T.sqrt ((p.target_x - x') ^ 2 + (p.target_y - y') ^ 2)
        < p.travel_speed * dt then
      ({ p' with
         x := p.target_x, y := p.target_y,
         rect := p'.rect.setCenter (pyInt p.target_x) (pyInt p.target_y),
         aoe_state := "arrived",
         arrival_timer := p.delay_after_arrival }, enemies, none)
    else (p', enemies, none)
  else if p.aoe_state = "arrived" then
    let at' := p.arrival_timer - dt
    if at' ≤ 0 then
      ({ p with
         arrival_timer := at',
         aoe_state := "exploding",
         explosion_timer := p.aoe_duration,
         aoe_damage_applied := false,
         rect := mkRectCenter (pyInt p.x) (pyInt p.y)
           (pyInt (p.aoe_radius * 2)) (pyInt (p.aoe_radius * 2)) },
       enemies, none)
    else ({ p with arrival_timer := at' }, enemies, none)
  else if p.aoe_state = "exploding" then
    let enemies' :=
      if p.aoe_damage_applied = false then
        enemies.map (fun e =>
          if e.active = true ∧ distSqTo p.x p.y e ≤ p.aoe_radius ^ 2 then
            e.takeDamage p.aoe_damage
          else e)
      else enemies
    let p :=
      if p.aoe_damage_applied = false then
        { p with aoe_damage_applied := true }
      else p
    let et := p.explosion_timer - dt
    (if et ≤ 0 then { p with explosion_timer := et, active := false }
     else { p with explosion_timer := et }, enemies', none)
  else (p, enemies, none)

/-- The FORKING branch of `Projectile.update`.  While not yet forked, monitor
the fork condition; on firing with a configured child spell, deactivate and
emit `fork_count` spawn requests fanned evenly across the spread angle
centered on the current heading.  The two `elif` arms after the
`if not has_forked` arm reproduce the source exactly: the range check is
reachable only when `has_forked` is already true. -/
def forkingBranch (T : TrigModel) (p : Projectile) (dt : ℚ)
    (enemies : List Enemy) :
    Projectile × List Enemy × Option (List ChildReq) :=
  if p.has_forked = false then
    let pf :=
      if p.fork_condition_type = "TIMER" then
        { p with timer_for_fork := p.timer_for_fork + dt }
      else if p.fork_condition_type = "ON_FIRST_HIT" ∧
          p.fork_now_on_hit_signal = true then
        { p with fork_now_on_hit_signal := false }
      else p
    let fork_now : Bool :=
      if p.fork_condition_type = "DISTANCE" then
        decide (p.distance_traveled ≥ p.fork_condition_value)
      else if p.fork_condition_type = "TIMER" then
        decide (p.timer_for_fork + dt ≥ p.fork_condition_value)
      else if p.fork_condition_type = "ON_FIRST_HIT" then
        p.fork_now_on_hit_signal
      else false
    match fork_now, pf.child_spell_id with
    | true, some cid =>
      let baseAng := T.atan2 pf.dy pf.dx
      let step :=
        if pf.fork_count = 1 then 0
        else pf.fork_angle_spread_rad / ((pf.fork_count : ℚ) - 1)
      let startOff :=
        if 1 < pf.fork_count then -(pf.fork_angle_spread_rad / 2) else 0
      let kids := (List.range pf.fork_count).map (fun (i : ℕ) =>
        { owner := pf.owner, spell_id := cid,
          start_x := pf.x, start_y := pf.y,
          angle := baseAng + startOff + (i : ℚ) * step : ChildReq })
      ({ pf with has_forked := true, active := false }, enemies, some kids)
    | _, _ => (pf, enemies, none)
  else if p.active = false then (p, enemies, none)
  else if p.distance_traveled > p.range_ then
    ({ p with active := false }, enemies, none)
  else (p, enemies, none)

/-- The SPIRAL branch of `Projectile.update`: lifetime timer against
`duration`, advancing center, expanding radius, rotating angle. -/
def spiralBranch (T : TrigModel) (p : Projectile) (dt : ℚ)
    (enemies : List Enemy) :
    Projectile × List Enemy × Option (List ChildReq) :=
  let lt := p.lifetime_timer + dt
  if lt > p.duration then
    ({ p with lifetime_timer := lt, active := false }, enemies, none)
  else
    let cx := p.center_x + p.base_dx * p.base_travel_speed * dt
    let cy := p.center_y + p.base_dy * p.base_travel_speed * dt
    let r' := p.current_spiral_radius + p.expansion_speed * dt
    let ang := p.current_spiral_angle_rad + p.rotation_speed_rad * dt
    let x' := cx + T.cos ang * r'
    let y' := cy + T.sin ang * r'
    ({ p with
       lifetime_timer := lt, center_x := cx, center_y := cy,
       current_spiral_radius := r', current_spiral_angle_rad := ang,
       x := x', y := y',
       rect := p.rect.setCenter (pyInt x') (pyInt y') }, enemies, none)

/-- The GROWING_ORB branch of `Projectile.update`: straight movement with a
(second) distance accumulation, radius growth clamped to `max_radius` while
the growth timer is below `growth_duration`, rect rebuilt at the stored
center, then recentered at the new position; range check last. -/
def growingOrbBranch (p : Projectile) (dt : ℚ) (enemies : List Enemy) :
    Projectile × List Enemy × Option (List ChildReq) :=
  let x' := p.x + p.dx * p.speed * dt
  let y' := p.y + p.dy * p.speed * dt
  let d' := p.distance_traveled + p.speed * dt
  let gt := p.growth_active_timer + dt
  let belowDuration : Bool :=
    match p.growth_duration with
    | none => true
    | some g => decide (gt < g)
  let p' :=
    if p.current_radius < p.max_radius ∧ belowDuration = true then
      let r' := min (p.current_radius + p.growth_rate * dt) p.max_radius
      let ri := max 1 (pyInt r')
      { p with
        current_radius := r',
        rect := mkRectCenter p.rect.centerx p.rect.centery
          (ri * 2) (ri * 2) }
    else p
  let p' :=
    { p' with
      x := x', y := y', distance_traveled := d',
      growth_active_timer := gt,
      rect := p'.rect.setCenter (pyInt x') (pyInt y') }
  (if d' > p.range_ then { p' with active := false } else p', enemies, none)

/-- `Projectile.update(dt, enemies_list)`: no-op when inactive; otherwise the
common movement block followed by the trajectory-specific branch.  Returns
the updated projectile, the (possibly damaged, for GROUND_AOE explosions)
enemy list, and the optional child-spawn requests of a FORKING projectile. -/
def Projectile.update (T : TrigModel) (p : Projectile) (dt : ℚ)
    (enemies : List Enemy) :
    Projectile × List Enemy × Option (List ChildReq) :=
  if p.active = false then (p, enemies, none)
  else
    let p := commonMove T p dt enemies
    if p.trajectory_type = "ORBITING" then orbitingBranch T p dt enemies
    else if p.trajectory_type = "SINE_WAVE" then sineWaveBranch T p dt enemies
    else if p.trajectory_type = "BOOMERANG" then boomerangBranch p dt enemies
    else if p.trajectory_type = "CHAIN" then chainBranch T p dt enemies
    else if p.trajectory_type = "PIERCING" then piercingBranch p dt enemies
    else if p.trajectory_type = "GROUND_AOE" then groundAoeBranch T p dt enemies
    else if p.trajectory_type = "FORKING" then forkingBranch T p dt enemies
    else if p.trajectory_type = "SPIRAL" then spiralBranch T p dt enemies
    else if p.trajectory_type = "GROWING_ORB" then growingOrbBranch p dt enemies
    else (p, enemies, none)

/-- The CHAIN next-target search of `on_hit_enemy`: nearest active enemy other
than the one just struck, strictly within the chain radius (`min_dist_sq`
starts at `chain_radius_sq`). -/
def chainStep (px py : ℚ) (lastId : Option ℤ)
    (acc : Option Enemy × ℚ) (e : Enemy) : Option Enemy × ℚ :=
  if e.active = false ∨ some e.id = lastId then acc
  else
    let d := distSqTo px py e
    if d < acc.2 then (some e, d) else acc

def chainNextTarget (px py : ℚ) (lastId : Option ℤ) (radiusSq : ℚ)
    (allEnemies : List Enemy) : Option Enemy :=
  (allEnemies.foldl (chainStep px py lastId) (none, radiusSq)).1

/-- `Projectile.on_hit_enemy(hit_enemy, all_enemies_list)`.  The source never
mutates any enemy here and (since the child-spawn refactor) always returns
`None`, so the model returns only the updated projectile. -/
def Projectile.onHitEnemy (T : TrigModel) (p : Projectile) (hitEnemy : Enemy)
    (allEnemies : List Enemy) : Projectile :=
  if p.trajectory_type = "CHAIN" then
    let p :=
      { p with
        chain_count := p.chain_count + 1,
        last_hit_enemy_id := some hitEnemy.id }
    if p.chain_count ≥ p.max_chains then { p with active := false }
    else
      match chainNextTarget p.x p.y p.last_hit_enemy_id p.chain_radius_sq
          allEnemies with
      | some t =>
        let tx := (t.rect.centerx : ℚ) - p.x
        let ty := (t.rect.centery : ℚ) - p.y
        let mag := T.sqrt (tx ^ 2 + ty ^ 2)
        let p :=
          if 0 < mag then { p with dx := tx / mag, dy := ty / mag } else p
        { p with distance_traveled := 0 }
      | none => { p with active := false }
  else if p.trajectory_type = "PIERCING" then
    if hitEnemy.id ∈ p.hit_enemy_ids then p
    else
      let p :=
        { p with
          hit_enemy_ids := insert hitEnemy.id p.hit_enemy_ids,
          hit_enemies_count := p.hit_enemies_count + 1 }
      if p.hit_enemies_count ≥ p.pierce_count then { p with active := false }
      else p
  else if p.trajectory_type = "GROUND_AOE" then p
  else if p.trajectory_type = "FORKING" ∧
      p.fork_condition_type = "ON_FIRST_HIT" then
    let p :=
      if p.has_forked = false ∧ p.child_spell_id ≠ none then
        { p with fork_now_on_hit_signal := true }
      else p
    if p.fork_now_on_hit_signal = false then { p with active := false } else p
  else { p with active := false }

/-- Association-list lookup standing for `self.spell_data.get(spell_id)`. -/
def lookupSpell (spellData : List (String × SpellDef)) (sid : String) :
    Option SpellDef :=
  (spellData.find? (fun kv => kv.1 = sid)).map Prod.snd

/-- `ProjectileManager.create_projectile`: copies the trajectory properties
and, for a GROUND_AOE configuration, injects the raw cast-target coordinates
before constructing the projectile. -/
def createProjectile (T : TrigModel) (owner : Option Owner)
    (start_x start_y target_x target_y dx dy damage speed range_val : ℚ)
    (ptype : String) (props : TrajProps) : Projectile :=
  let props :=
    if props.type_ = some "GROUND_AOE" then
      { props with raw_target_x := some target_x, raw_target_y := some target_y }
    else props
  Projectile.init T owner start_x start_y dx dy damage speed range_val
    ptype props

/-- Resolution of one child-spawn request inside `ProjectileManager.update`:
look the child spell up in the catalogue (a missing id is skipped with a
warning), rebuild the direction from the request (the source normalizes
`target - start` where the target sits 100 units along the fork angle, which
recovers `(cos θ, sin θ)` exactly), and construct the child projectile. -/
def buildChild (T : TrigModel) (spellData : List (String × SpellDef))
    (req : ChildReq) : Option Projectile :=
  match lookupSpell spellData req.spell_id with
  | none => none
  | some sd =>
    let cdx := T.cos req.angle
    let cdy := T.sin req.angle
    some (createProjectile T req.owner req.start_x req.start_y
      (req.start_x + cdx * 100) (req.start_y + cdy * 100) cdx cdy
      (sd.damage.getD 0) (sd.speed.getD 100) (sd.range_.getD 100)
      req.spell_id (sd.trajectory_properties.getD {}))

/-- The per-projectile pass of `ProjectileManager.update`: update each
projectile of the snapshot in order (threading the enemy list, which a
GROUND_AOE explosion may modify), build child projectiles from any returned
spawn requests, and drop projectiles that ended the pass inactive.  Returns
(survivors in order, final enemies, children in order). -/
def managerPass (T : TrigModel) (spellData : List (String × SpellDef))
    (dt : ℚ) :
    List Projectile → List Enemy → List Projectile × List Enemy × List Projectile
  | [], enemies => ([], enemies, [])
  | p :: rest, enemies =>
    let r := p.update T dt enemies
    let kids :=
      match r.2.2 with
      | none => []
      | some reqs => reqs.filterMap (buildChild T spellData)
    let tail := managerPass T spellData dt rest r.2.1
    ((if r.1.active then [r.1] else []) ++ tail.1, tail.2.1, kids ++ tail.2.2)

/-- `ProjectileManager.update(dt, enemies_list)`: run the pass over a snapshot
of the active set, remove projectiles that became inactive, then add the
newly built children after the pass. -/
def managerUpdate (T : TrigModel) (spellData : List (String × SpellDef))
    (projs : List Projectile) (dt : ℚ) (enemies : List Enemy) :
    List Projectile × List Enemy :=
  let r := managerPass T spellData dt projs enemies
  (r.1 ++ r.2.2, r.2.1)

/-- The update-pass described by the specification's own words, used as the
reference shape for the ordering claim: first update every projectile of the
snapshot (collecting the child-spawn requests), and only after that pass
completes, keep the still-active projectiles and append the children built
from the template lookup, children receiving no movement or fork processing
of their own this call. -/
def updateAllSpec (T : TrigModel) (dt : ℚ) :
    List Projectile → List Enemy →
    List (Projectile × Option (List ChildReq)) × List Enemy
  | [], enemies => ([], enemies)
  | p :: rest, enemies =>
    let r := p.update T dt enemies
    let tail := updateAllSpec T dt rest r.2.1
    ((r.1, r.2.2) :: tail.1, tail.2)

/-- Specification-shaped `ProjectileManager.update`: the survivors of the
update pass, followed by the freshly constructed (never updated) children of
every spawn request of the pass. -/
def managerUpdateSpec (T : TrigModel) (spellData : List (String × SpellDef))
    (projs : List Projectile) (dt : ℚ) (enemies : List Enemy) :
    List Projectile × List Enemy :=
  let r := updateAllSpec T dt projs enemies
  let survivors := (r.1.map Prod.fst).filter (fun p => p.active)
  let reqs := r.1.flatMap (fun pr => pr.2.getD [])
  (survivors ++ reqs.filterMap (buildChild T spellData), r.2)

/-- The inner loop of `check_enemy_collisions` for one projectile: walk the
colliding enemies in order, record a `(enemy id, projectile index, damage)`
triple for each, invoke `on_hit_enemy` immediately, and stop as soon as the
projectile is no longer active. -/
def hitLoop (T : TrigModel) (idx : ℕ) (allEnemies : List Enemy) :
    Projectile → List Enemy → List (ℤ × ℕ × ℚ) × Projectile
  | p, [] => ([], p)
  | p, e :: rest =>
    let col : ℤ × ℕ × ℚ := (e.id, idx, p.damage)
    let p' := p.onHitEnemy T e allEnemies
    if p'.active = false then ([col], p')
    else
      let tail := hitLoop T idx allEnemies p' rest
      (col :: tail.1, tail.2)

/-- `ProjectileManager.check_enemy_collisions(enemies_group)`: for every
projectile (indexed in set order), collect the enemies whose rect overlaps
its rect (`pygame.sprite.spritecollide` with `dokill=False`), then run the
hit loop.  Returns the reported collision triples and the projectiles with
their post-hit state (this method never removes projectiles and never touches
enemy hit points). -/
def checkEnemyCollisions (T : TrigModel) (enemies : List Enemy) :
    List Projectile → ℕ → List (ℤ × ℕ × ℚ) × List Projectile
  | [], _ => ([], [])
  | p :: rest, idx =>
    let hits := enemies.filter (fun e => p.rect.collide e.rect)
    let r := hitLoop T idx enemies p hits
    let tail := checkEnemyCollisions T enemies rest (idx + 1)
    (r.1 ++ tail.1, r.2 :: tail.2)

/-- Run a sequence of `update` calls, each with its own `dt` and enemy list,
keeping only the projectile state (used for claims that do not involve enemy
mutation). -/
def runSteps (T : TrigModel) (p : Projectile) (steps : List (ℚ × List Enemy)) :
    Projectile :=
  steps.foldl (fun q s => (q.update T s.1 s.2).1) p

/-- Run a sequence of `update` calls against one persistent enemy list,
threading the (possibly damaged) enemies through. -/
def runFull (T : TrigModel) (p : Projectile) (enemies : List Enemy)
    (dts : List ℚ) : Projectile × List Enemy :=
  dts.foldl (fun st d =>
    let r := st.1.update T d st.2
    (r.1, r.2.1)) (p, enemies)

/-- Run a sequence of `update` calls, collecting every child-spawn request
returned along the way. -/
def runCollect (T : TrigModel) (p : Projectile)
    (steps : List (ℚ × List Enemy)) : Projectile × List ChildReq :=
  steps.foldl (fun st s =>
    let r := st.1.update T s.1 s.2
    (r.1, st.2 ++ (r.2.2.getD []))) (p, [])

/-! ## Basic step lemmas -/

theorem update_notActive (T : TrigModel) (p : Projectile) (dt : ℚ)
    (en : List Enemy) (h : p.active = false) :
    p.update T dt en = (p, en, none) := by
  simp [Projectile.update, h]

theorem moveStep_def (p : Projectile) (dt : ℚ) :
    moveStep p dt =
      { p with
        x := p.x + p.dx * p.speed * dt,
        y := p.y + p.dy * p.speed * dt,
        rect := p.rect.setCenter (pyInt (p.x + p.dx * p.speed * dt))
          (pyInt (p.y + p.dy * p.speed * dt)),
        distance_traveled := p.distance_traveled + p.speed * dt } := rfl

theorem homingBlend_traj (T : TrigModel) (p : Projectile) (s : ℚ)
    (tgt : Option Enemy) :
    (homingBlend T p s tgt).trajectory_type = p.trajectory_type := by
  cases tgt <;> rfl

theorem homingBlend_active (T : TrigModel) (p : Projectile) (s : ℚ)
    (tgt : Option Enemy) :
    (homingBlend T p s tgt).active = p.active := by
  cases tgt <;> rfl

theorem homingBlend_dist (T : TrigModel) (p : Projectile) (s : ℚ)
    (tgt : Option Enemy) :
    (homingBlend T p s tgt).distance_traveled = p.distance_traveled := by
  cases tgt <;> rfl

theorem homingBlend_speed (T : TrigModel) (p : Projectile) (s : ℚ)
    (tgt : Option Enemy) :
    (homingBlend T p s tgt).speed = p.speed := by
  cases tgt <;> rfl

theorem homingBlend_range (T : TrigModel) (p : Projectile) (s : ℚ)
    (tgt : Option Enemy) :
    (homingBlend T p s tgt).range_ = p.range_ := by
  cases tgt <;> rfl

theorem homingBlend_props (T : TrigModel) (p : Projectile) (s : ℚ)
    (tgt : Option Enemy) :
    (homingBlend T p s tgt).props = p.props := by
  cases tgt <;> rfl

theorem commonMove_type (T : TrigModel) (p : Projectile) (dt : ℚ)
    (en : List Enemy) :
    (commonMove T p dt en).trajectory_type = p.trajectory_type := by
  unfold commonMove
  split
  · rfl
  · dsimp only
    split <;> rw [moveStep_def] <;>
      simp [apply_ite (f := Projectile.trajectory_type), homingBlend_traj]

theorem commonMove_skips (T : TrigModel) (p : Projectile) (dt : ℚ)
    (en : List Enemy)
    (hk : p.trajectory_type = "ORBITING" ∨ p.trajectory_type = "GROUND_AOE") :
    commonMove T p dt en = p := by
  unfold commonMove
  rw [if_pos hk]

theorem commonMove_plain (T : TrigModel) (p : Projectile) (dt : ℚ)
    (en : List Enemy)
    (h1 : p.trajectory_type ≠ "ORBITING") (h2 : p.trajectory_type ≠ "GROUND_AOE")
    (h3 : p.trajectory_type ≠ "HOMING") (h4 : p.trajectory_type ≠ "CHAIN")
    (h5 : p.trajectory_type ≠ "FORKING") :
    commonMove T p dt en =
      (if p.distance_traveled + p.speed * dt > p.range_ then
        { moveStep p dt with active := false }
      else moveStep p dt) := by
  have c1 : ¬(p.trajectory_type = "ORBITING" ∨ p.trajectory_type = "GROUND_AOE") := by
    simp [h1, h2]
  have c2 : ¬(p.trajectory_type = "HOMING" ∨ p.trajectory_type = "CHAIN") := by
    simp [h3, h4]
  have hdm : (moveStep p dt).distance_traveled
      = p.distance_traveled + p.speed * dt := rfl
  have hrm : (moveStep p dt).range_ = p.range_ := rfl
  have htm : (moveStep p dt).trajectory_type = p.trajectory_type := rfl
  unfold commonMove
  rw [if_neg c1]
  dsimp only
  rw [if_neg c2]
  by_cases hd : p.distance_traveled + p.speed * dt > p.range_
  · have c3 : (moveStep p dt).distance_traveled > (moveStep p dt).range_ ∧
        (moveStep p dt).trajectory_type ≠ "FORKING" :=
      ⟨by rw [hdm, hrm]; exact hd, by rw [htm]; exact h5⟩
    rw [if_pos c3, if_pos hd]
  · have c3 : ¬((moveStep p dt).distance_traveled > (moveStep p dt).range_ ∧
        (moveStep p dt).trajectory_type ≠ "FORKING") :=
      fun h => hd (by rw [hdm, hrm] at h; exact h.1)
    rw [if_neg c3, if_neg hd]

theorem commonMove_forking (T : TrigModel) (p : Projectile) (dt : ℚ)
    (en : List Enemy) (hk : p.trajectory_type = "FORKING") :
    commonMove T p dt en = moveStep p dt := by
  have c1 : ¬(p.trajectory_type = "ORBITING" ∨ p.trajectory_type = "GROUND_AOE") := by
    simp [hk]
  have c2 : ¬(p.trajectory_type = "HOMING" ∨ p.trajectory_type = "CHAIN") := by
    simp [hk]
  have htm : (moveStep p dt).trajectory_type = p.trajectory_type := rfl
  have c3 : ¬((moveStep p dt).distance_traveled > (moveStep p dt).range_ ∧
      (moveStep p dt).trajectory_type ≠ "FORKING") := by
    rw [htm, hk]
    simp
  unfold commonMove
  rw [if_neg c1]
  dsimp only
  rw [if_neg c2, if_neg c3]

theorem commonMove_homing (T : TrigModel) (p : Projectile) (dt : ℚ)
    (en : List Enemy) (hk : p.trajectory_type = "HOMING") :
    commonMove T p dt en =
      (if p.distance_traveled + p.speed * dt > p.range_ then
        { moveStep (homingBlend T p (p.props.homing_strength.getD 0.05)
            (findTarget p.x p.y none en)) dt with active := false }
      else moveStep (homingBlend T p (p.props.homing_strength.getD 0.05)
            (findTarget p.x p.y none en)) dt) := by
  have c1 : ¬(p.trajectory_type = "ORBITING" ∨ p.trajectory_type = "GROUND_AOE") := by
    simp [hk]
  have c2 : p.trajectory_type = "HOMING" ∨ p.trajectory_type = "CHAIN" :=
    Or.inl hk
  have c4 : ¬(p.trajectory_type = "CHAIN") := by rw [hk]; decide
  unfold commonMove
  rw [if_neg c1]
  dsimp only
  rw [if_pos c2, if_pos hk, if_neg c4]
  set pb := homingBlend T p (p.props.homing_strength.getD 0.05)
    (findTarget p.x p.y none en) with hpb
  have hdm : (moveStep pb dt).distance_traveled
      = p.distance_traveled + p.speed * dt := by
    show pb.distance_traveled + pb.speed * dt = _
    rw [hpb, homingBlend_dist, homingBlend_speed]
  have hrm : (moveStep pb dt).range_ = p.range_ := by
    show pb.range_ = _
    rw [hpb, homingBlend_range]
  have htm : (moveStep pb dt).trajectory_type = p.trajectory_type := by
    show pb.trajectory_type = _
    rw [hpb, homingBlend_traj]
  by_cases hd : p.distance_traveled + p.speed * dt > p.range_
  · have c3 : (moveStep pb dt).distance_traveled > (moveStep pb dt).range_ ∧
        (moveStep pb dt).trajectory_type ≠ "FORKING" :=
      ⟨by rw [hdm, hrm]; exact hd, by rw [htm, hk]; decide⟩
    rw [if_pos c3, if_pos hd]
  · have c3 : ¬((moveStep pb dt).distance_traveled > (moveStep pb dt).range_ ∧
        (moveStep pb dt).trajectory_type ≠ "FORKING") :=
      fun h => hd (by rw [hdm, hrm] at h; exact h.1)
    rw [if_neg c3, if_neg hd]

theorem update_straightKind (T : TrigModel) (p : Projectile) (dt : ℚ)
    (en : List Enemy) (hk : p.trajectory_type = "STRAIGHT")
    (ha : p.active = true) :
    p.update T dt en = (commonMove T p dt en, en, none) := by
  rw [Projectile.update]
  simp only [ha, Bool.true_eq_false, if_false, commonMove_type, hk,
    String.reduceEq, if_true, reduceIte]

theorem update_homingKind (T : TrigModel) (p : Projectile) (dt : ℚ)
    (en : List Enemy) (hk : p.trajectory_type = "HOMING")
    (ha : p.active = true) :
    p.update T dt en = (commonMove T p dt en, en, none) := by
  rw [Projectile.update]
  simp only [ha, Bool.true_eq_false, if_false, commonMove_type, hk,
    String.reduceEq, if_true, reduceIte]

theorem update_piercingKind (T : TrigModel) (p : Projectile) (dt : ℚ)
    (en : List Enemy) (hk : p.trajectory_type = "PIERCING")
    (ha : p.active = true) :
    p.update T dt en = piercingBranch (commonMove T p dt en) dt en := by
  rw [Projectile.update]
  simp only [ha, Bool.true_eq_false, if_false, commonMove_type, hk,
    String.reduceEq, if_true, reduceIte]

theorem update_growingOrbKind (T : TrigModel) (p : Projectile) (dt : ℚ)
    (en : List Enemy) (hk : p.trajectory_type = "GROWING_ORB")
    (ha : p.active = true) :
    p.update T dt en = growingOrbBranch (commonMove T p dt en) dt en := by
  rw [Projectile.update]
  simp only [ha, Bool.true_eq_false, if_false, commonMove_type, hk,
    String.reduceEq, if_true, reduceIte]

theorem update_boomerangKind (T : TrigModel) (p : Projectile) (dt : ℚ)
    (en : List Enemy) (hk : p.trajectory_type = "BOOMERANG")
    (ha : p.active = true) :
    p.update T dt en = boomerangBranch (commonMove T p dt en) dt en := by
  rw [Projectile.update]
  simp only [ha, Bool.true_eq_false, if_false, commonMove_type, hk,
    String.reduceEq, if_true, reduceIte]

theorem update_chainKind (T : TrigModel) (p : Projectile) (dt : ℚ)
    (en : List Enemy) (hk : p.trajectory_type = "CHAIN")
    (ha : p.active = true) :
    p.update T dt en = chainBranch T (commonMove T p dt en) dt en := by
  rw [Projectile.update]
  simp only [ha, Bool.true_eq_false, if_false, commonMove_type, hk,
    String.reduceEq, if_true, reduceIte]

theorem update_forkingKind (T : TrigModel) (p : Projectile) (dt : ℚ)
    (en : List Enemy) (hk : p.trajectory_type = "FORKING")
    (ha : p.active = true) :
    p.update T dt en = forkingBranch T (commonMove T p dt en) dt en := by
  rw [Projectile.update]
  simp only [ha, Bool.true_eq_false, if_false, commonMove_type, hk,
    String.reduceEq, if_true, reduceIte]

theorem update_groundAoeKind (T : TrigModel) (p : Projectile) (dt : ℚ)
    (en : List Enemy) (hk : p.trajectory_type = "GROUND_AOE")
    (ha : p.active = true) :
    p.update T dt en = groundAoeBranch T p dt en := by
  rw [Projectile.update]
  simp only [ha, Bool.true_eq_false, if_false, commonMove_type, hk,
    String.reduceEq, if_true, reduceIte,
    commonMove_skips T p dt en (Or.inr hk)]

theorem piercingBranch_def (p : Projectile) (dt : ℚ) (en : List Enemy) :
    piercingBranch p dt en =
      (if p.distance_traveled + p.speed * dt > p.range_ then
        { moveStep p dt with active := false }
      else moveStep p dt, en, none) := by
  have hdm : (moveStep p dt).distance_traveled
      = p.distance_traveled + p.speed * dt := rfl
  have hrm : (moveStep p dt).range_ = p.range_ := rfl
  unfold piercingBranch
  dsimp only
  by_cases hd : p.distance_traveled + p.speed * dt > p.range_
  · rw [if_pos (by rw [hdm, hrm]; exact hd), if_pos hd]
  · rw [if_neg (by rw [hdm, hrm]; exact hd), if_neg hd]

theorem piercingBranch_scalar (p : Projectile) (dt : ℚ) (en : List Enemy) :
    (piercingBranch p dt en).2.1 = en ∧
    (piercingBranch p dt en).2.2 = none ∧
    (piercingBranch p dt en).1.active =
      (if p.distance_traveled + p.speed * dt > p.range_ then false
       else p.active) ∧
    (piercingBranch p dt en).1.distance_traveled
      = p.distance_traveled + p.speed * dt ∧
    (piercingBranch p dt en).1.trajectory_type = p.trajectory_type ∧
    (piercingBranch p dt en).1.speed = p.speed ∧
    (piercingBranch p dt en).1.range_ = p.range_ := by
  rw [piercingBranch_def]
  by_cases hd : p.distance_traveled + p.speed * dt > p.range_ <;>
    simp [hd, moveStep_def]

theorem runSteps_nil (T : TrigModel) (p : Projectile) :
    runSteps T p [] = p := rfl

theorem runSteps_cons (T : TrigModel) (p : Projectile) (s : ℚ × List Enemy)
    (rest : List (ℚ × List Enemy)) :
    runSteps T p (s :: rest) = runSteps T (p.update T s.1 s.2).1 rest := rfl

theorem runSteps_notActive (T : TrigModel) (p : Projectile)
    (steps : List (ℚ × List Enemy)) (h : p.active = false) :
    runSteps T p steps = p := by
  induction steps with
  | nil => rfl
  | cons s rest ih =>
    rw [runSteps_cons, update_notActive T p s.1 s.2 h]
    exact ih

/-- Distance accumulated per simulated second and unit of `speed` by each of
the four straight-moving trajectory kinds of the range-expiry property:
PIERCING and GROWING_ORB pass both through the common movement block and
through their own movement branch, so their accumulator advances at twice
the speed. -/
def distRate (k : String) : ℚ :=
  if k = "PIERCING" ∨ k = "GROWING_ORB" then 2 else 1

theorem growingOrbBranch_scalar (p : Projectile) (dt : ℚ) (en : List Enemy) :
    (growingOrbBranch p dt en).2.1 = en ∧
    (growingOrbBranch p dt en).2.2 = none ∧
    (growingOrbBranch p dt en).1.active =
      (if p.distance_traveled + p.speed * dt > p.range_ then false
       else p.active) ∧
    (growingOrbBranch p dt en).1.distance_traveled
      = p.distance_traveled + p.speed * dt ∧
    (growingOrbBranch p dt en).1.trajectory_type = p.trajectory_type ∧
    (growingOrbBranch p dt en).1.speed = p.speed ∧
    (growingOrbBranch p dt en).1.range_ = p.range_ := by
  unfold growingOrbBranch
  dsimp only
  by_cases hg : p.current_radius < p.max_radius ∧
      (match p.growth_duration with
       | none => true
       | some g => decide (p.growth_active_timer + dt < g)) = true <;>
    by_cases hd : p.distance_traveled + p.speed * dt > p.range_ <;>
      simp [hg, hd]

theorem rangeStep (T : TrigModel) (p : Projectile) (dt : ℚ) (en : List Enemy)
    (hk : p.trajectory_type = "STRAIGHT" ∨ p.trajectory_type = "HOMING" ∨
      p.trajectory_type = "PIERCING" ∨ p.trajectory_type = "GROWING_ORB")
    (ha : p.active = true) (hs : 0 ≤ p.speed) (hdt : 0 ≤ dt) :
    (p.update T dt en).1.active =
      decide (p.distance_traveled
        + distRate p.trajectory_type * p.speed * dt ≤ p.range_) ∧
    (p.update T dt en).1.distance_traveled =
      p.distance_traveled + distRate p.trajectory_type * p.speed * dt ∧
    (p.update T dt en).1.trajectory_type = p.trajectory_type ∧
    (p.update T dt en).1.speed = p.speed ∧
    (p.update T dt en).1.range_ = p.range_ := by
  have hsdt : 0 ≤ p.speed * dt := mul_nonneg hs hdt
  rcases hk with hk | hk | hk | hk
  · rw [update_straightKind T p dt en hk ha,
      commonMove_plain T p dt en (by rw [hk]; decide) (by rw [hk]; decide)
        (by rw [hk]; decide) (by rw [hk]; decide) (by rw [hk]; decide)]
    rw [hk, distRate]
    by_cases hd : p.distance_traveled + p.speed * dt > p.range_
    · simp [hd, moveStep_def, ha, hk, not_le.mpr hd]
    · simp [hd, moveStep_def, ha, hk, le_of_not_lt hd]
  · rw [update_homingKind T p dt en hk ha,
      commonMove_homing T p dt en hk]
    rw [hk, distRate]
    set pb := homingBlend T p (p.props.homing_strength.getD 0.05)
      (findTarget p.x p.y none en) with hpb
    by_cases hd : p.distance_traveled + p.speed * dt > p.range_
    · simp [hd, moveStep_def, ha, hk, not_le.mpr hd, hpb,
        homingBlend_dist, homingBlend_speed, homingBlend_range,
        homingBlend_traj, homingBlend_active]
    · simp [hd, moveStep_def, ha, hk, le_of_not_lt hd, hpb,
        homingBlend_dist, homingBlend_speed, homingBlend_range,
        homingBlend_traj, homingBlend_active]
  · rw [update_piercingKind T p dt en hk ha,
      commonMove_plain T p dt en (by rw [hk]; decide) (by rw [hk]; decide)
        (by rw [hk]; decide) (by rw [hk]; decide) (by rw [hk]; decide)]
    rw [hk, show distRate "PIERCING" = 2 from by simp [distRate]]
    by_cases hd : p.distance_traveled + p.speed * dt > p.range_
    · rw [if_pos hd]
      have hh := piercingBranch_scalar { moveStep p dt with active := false } dt en
      refine ⟨?_, ?_, ?_, ?_, ?_⟩
      · rw [hh.2.2.1, if_pos (show ({ moveStep p dt with active := false
            : Projectile }).distance_traveled
            + ({ moveStep p dt with active := false : Projectile }).speed * dt
            > ({ moveStep p dt with active := false : Projectile }).range_ from by
          show p.distance_traveled + p.speed * dt + p.speed * dt > p.range_
          linarith)]
        symm
        simp only [reduceIte, decide_eq_false_iff_not, not_le]
        linarith
      · rw [hh.2.2.2.1]
        show p.distance_traveled + p.speed * dt + p.speed * dt = _
        ring
      · rw [hh.2.2.2.2.1]
        exact hk
      · rw [hh.2.2.2.2.2.1]
        exact rfl
      · rw [hh.2.2.2.2.2.2]
        exact rfl
    · rw [if_neg hd]
      have hh := piercingBranch_scalar (moveStep p dt) dt en
      by_cases h2 : p.distance_traveled + p.speed * dt + p.speed * dt > p.range_
      · refine ⟨?_, ?_, ?_, ?_, ?_⟩
        · rw [hh.2.2.1, if_pos (show (moveStep p dt).distance_traveled
              + (moveStep p dt).speed * dt > (moveStep p dt).range_ from h2)]
          symm
          simp only [decide_eq_false_iff_not, not_le]
          linarith
        · rw [hh.2.2.2.1]
          show p.distance_traveled + p.speed * dt + p.speed * dt = _
          ring
        · rw [hh.2.2.2.2.1]
          exact hk
        · rw [hh.2.2.2.2.2.1]
          exact rfl
        · rw [hh.2.2.2.2.2.2]
          exact rfl
      · refine ⟨?_, ?_, ?_, ?_, ?_⟩
        · rw [hh.2.2.1, if_neg (show ¬((moveStep p dt).distance_traveled
              + (moveStep p dt).speed * dt > (moveStep p dt).range_) from h2)]
          show p.active = _
          rw [ha]
          symm
          simp only [decide_eq_true_eq]
          linarith
        · rw [hh.2.2.2.1]
          show p.distance_traveled + p.speed * dt + p.speed * dt = _
          ring
        · rw [hh.2.2.2.2.1]
          exact hk
        · rw [hh.2.2.2.2.2.1]
          exact rfl
        · rw [hh.2.2.2.2.2.2]
          exact rfl
  · rw [update_growingOrbKind T p dt en hk ha,
      commonMove_plain T p dt en (by rw [hk]; decide) (by rw [hk]; decide)
        (by rw [hk]; decide) (by rw [hk]; decide) (by rw [hk]; decide)]
    rw [hk, show distRate "GROWING_ORB" = 2 from by norm_num [distRate]]
    by_cases hd : p.distance_traveled + p.speed * dt > p.range_
    · rw [if_pos hd]
      have hh := growingOrbBranch_scalar { moveStep p dt with active := false } dt en
      refine ⟨?_, ?_, ?_, ?_, ?_⟩
      · rw [hh.2.2.1, if_pos (show ({ moveStep p dt with active := false
            : Projectile }).distance_traveled
            + ({ moveStep p dt with active := false : Projectile }).speed * dt
            > ({ moveStep p dt with active := false : Projectile }).range_ from by
          show p.distance_traveled + p.speed * dt + p.speed * dt > p.range_
          linarith)]
        symm
        simp only [reduceIte, decide_eq_false_iff_not, not_le]
        linarith
      · rw [hh.2.2.2.1]
        show p.distance_traveled + p.speed * dt + p.speed * dt = _
        ring
      · rw [hh.2.2.2.2.1]
        exact hk
      · rw [hh.2.2.2.2.2.1]
        exact rfl
      · rw [hh.2.2.2.2.2.2]
        exact rfl
    · rw [if_neg hd]
      have hh := growingOrbBranch_scalar (moveStep p dt) dt en
      by_cases h2 : p.distance_traveled + p.speed * dt + p.speed * dt > p.range_
      · refine ⟨?_, ?_, ?_, ?_, ?_⟩
        · rw [hh.2.2.1, if_pos (show (moveStep p dt).distance_traveled
              + (moveStep p dt).speed * dt > (moveStep p dt).range_ from h2)]
          symm
          simp only [decide_eq_false_iff_not, not_le]
          linarith
        · rw [hh.2.2.2.1]
          show p.distance_traveled + p.speed * dt + p.speed * dt = _
          ring
        · rw [hh.2.2.2.2.1]
          exact hk
        · rw [hh.2.2.2.2.2.1]
          exact rfl
        · rw [hh.2.2.2.2.2.2]
          exact rfl
      · refine ⟨?_, ?_, ?_, ?_, ?_⟩
        · rw [hh.2.2.1, if_neg (show ¬((moveStep p dt).distance_traveled
              + (moveStep p dt).speed * dt > (moveStep p dt).range_) from h2)]
          show p.active = _
          rw [ha]
          symm
          simp only [decide_eq_true_eq]
          linarith
        · rw [hh.2.2.2.1]
          show p.distance_traveled + p.speed * dt + p.speed * dt = _
          ring
        · rw [hh.2.2.2.2.1]
          exact hk
        · rw [hh.2.2.2.2.2.1]
          exact rfl
        · rw [hh.2.2.2.2.2.2]
          exact rfl

theorem rangeRun (T : TrigModel) (steps : List (ℚ × List Enemy)) :
    ∀ p : Projectile,
    (p.trajectory_type = "STRAIGHT" ∨ p.trajectory_type = "HOMING" ∨
      p.trajectory_type = "PIERCING" ∨ p.trajectory_type = "GROWING_ORB") →
    p.active = true → 0 ≤ p.speed →
    (∀ s ∈ steps, 0 ≤ s.1) →
    p.distance_traveled ≤ p.range_ →
    (runSteps T p steps).active
      = decide (p.distance_traveled
          + distRate p.trajectory_type * p.speed
            * (steps.map Prod.fst).sum ≤ p.range_) := by
  induction steps with
  | nil =>
    intro p _ ha _ _ hdle
    rw [runSteps_nil, ha]
    symm
    simp only [List.map_nil, List.sum_nil, mul_zero, add_zero]
    exact decide_eq_true hdle
  | cons s rest ih =>
    intro p hk ha hs hdts hdle
    have hdt : 0 ≤ s.1 := hdts s (by simp)
    have hrest : ∀ t ∈ rest, 0 ≤ t.1 := fun t ht => hdts t (by simp [ht])
    obtain ⟨hact, hdist, htraj, hspeed, hrange⟩ :=
      rangeStep T p s.1 s.2 hk ha hs hdt
    have hm : (0:ℚ) ≤ distRate p.trajectory_type := by
      rw [distRate]
      split <;> norm_num
    have hsum : 0 ≤ (rest.map Prod.fst).sum := by
      apply List.sum_nonneg
      intro q hq
      obtain ⟨t, ht, rfl⟩ := List.mem_map.mp hq
      exact hrest t ht
    rw [runSteps_cons]
    simp only [List.map_cons, List.sum_cons]
    by_cases hc : p.distance_traveled
        + distRate p.trajectory_type * p.speed * s.1 ≤ p.range_
    · have ha1 : (p.update T s.1 s.2).1.active = true := by
        rw [hact]
        exact decide_eq_true hc
      have hih := ih (p.update T s.1 s.2).1 (by rw [htraj]; exact hk) ha1
        (by rw [hspeed]; exact hs) hrest (by rw [hdist, hrange]; exact hc)
      rw [hih, hdist, htraj, hspeed, hrange]
      have harith : p.distance_traveled
          + distRate p.trajectory_type * p.speed * s.1
          + distRate p.trajectory_type * p.speed * (rest.map Prod.fst).sum
          = p.distance_traveled + distRate p.trajectory_type * p.speed
            * (s.1 + (rest.map Prod.fst).sum) := by ring
      rw [harith]
    · have ha1 : (p.update T s.1 s.2).1.active = false := by
        rw [hact]
        exact decide_eq_false hc
      rw [runSteps_notActive T _ rest ha1, ha1]
      symm
      apply decide_eq_false
      intro habs
      apply hc
      have hnn : 0 ≤ distRate p.trajectory_type * p.speed
          * (rest.map Prod.fst).sum :=
        mul_nonneg (mul_nonneg hm hs) hsum
      nlinarith [habs]

theorem initGroundAoe_scalar (T : TrigModel) (props : TrajProps)
    (base : Projectile) :
    (initGroundAoe T props base).active = base.active ∧
    (initGroundAoe T props base).distance_traveled = base.distance_traveled ∧
    (initGroundAoe T props base).speed = base.speed ∧
    (initGroundAoe T props base).range_ = base.range_ ∧
    (initGroundAoe T props base).trajectory_type = base.trajectory_type := by
  unfold initGroundAoe
  dsimp only
  split <;> exact ⟨rfl, rfl, rfl, rfl, rfl⟩

theorem init_scalar (T : TrigModel) (ow : Option Owner)
    (sx sy dx dy dmg sp rg : ℚ) (pt : String) (props : TrajProps) :
    (Projectile.init T ow sx sy dx dy dmg sp rg pt props).active = true ∧
    (Projectile.init T ow sx sy dx dy dmg sp rg pt props).distance_traveled = 0 ∧
    (Projectile.init T ow sx sy dx dy dmg sp rg pt props).speed = sp ∧
    (Projectile.init T ow sx sy dx dy dmg sp rg pt props).range_ = rg ∧
    (Projectile.init T ow sx sy dx dy dmg sp rg pt props).trajectory_type
      = props.type_.getD "STRAIGHT" := by
  unfold Projectile.init
  dsimp only
  repeat' split
  all_goals
    first
    | exact ⟨rfl, rfl, rfl, rfl, rfl⟩
    | exact ⟨(initGroundAoe_scalar _ _ _).1, (initGroundAoe_scalar _ _ _).2.1,
        (initGroundAoe_scalar _ _ _).2.2.1, (initGroundAoe_scalar _ _ _).2.2.2.1,
        (initGroundAoe_scalar _ _ _).2.2.2.2⟩

/-! ## Claim C1: range expiry of STRAIGHT / HOMING / PIERCING / GROWING_ORB -/

/-- C1 (counterexample): the claim "after dt values summing to exactly 2.0
simulated seconds the projectile's active flag is false, and after 1.9
seconds it is still true" fails on the code for two reasons exhibited here:
a STRAIGHT projectile (speed=100, range=200, direction (1,0)) is still
active after a single `update(2.0, [])` because the range check is strict
(`distance > range`), and a PIERCING projectile is already inactive after a
single `update(1.9, [])` because PIERCING accumulates distance both in the
common movement block and in its own movement branch. -/
theorem C1_counterexample :
    (runSteps T0 (Projectile.init T0 none 0 0 1 0 10 100 200 "spell"
      { type_ := some "STRAIGHT" }) [(2, [])]).active = true ∧
    (runSteps T0 (Projectile.init T0 none 0 0 1 0 10 100 200 "spell"
      { type_ := some "PIERCING" }) [(19/10, [])]).active = false := by
  constructor
  · have h := init_scalar T0 none 0 0 1 0 10 100 200 "spell"
      { type_ := some "STRAIGHT" }
    rw [rangeRun T0 [(2, [])] _ (Or.inl (by rw [h.2.2.2.2]; rfl)) h.1
      (by rw [h.2.2.1]; norm_num)
      (by intro s hs; rw [List.mem_singleton.mp hs]; norm_num)
      (by rw [h.2.1, h.2.2.2.1]; norm_num)]
    rw [h.2.1, h.2.2.1, h.2.2.2.1, (by rw [h.2.2.2.2]; rfl :
      (Projectile.init T0 none 0 0 1 0 10 100 200 "spell"
        { type_ := some "STRAIGHT" }).trajectory_type = "STRAIGHT"),
      show distRate "STRAIGHT" = 1 from by simp [distRate]]
    norm_num
  · have h := init_scalar T0 none 0 0 1 0 10 100 200 "spell"
      { type_ := some "PIERCING" }
    rw [rangeRun T0 [(19/10, [])] _ (Or.inr (Or.inr (Or.inl
        (by rw [h.2.2.2.2]; rfl)))) h.1
      (by rw [h.2.2.1]; norm_num)
      (by intro s hs; rw [List.mem_singleton.mp hs]; norm_num)
      (by rw [h.2.1, h.2.2.2.1]; norm_num)]
    rw [h.2.1, h.2.2.1, h.2.2.2.1, (by rw [h.2.2.2.2]; rfl :
      (Projectile.init T0 none 0 0 1 0 10 100 200 "spell"
        { type_ := some "PIERCING" }).trajectory_type = "PIERCING"),
      show distRate "PIERCING" = 2 from by simp [distRate]]
    norm_num

/-- C1 (amended): for a projectile of trajectory kind STRAIGHT, HOMING,
PIERCING or GROWING_ORB with `speed = 100`, `range = 200`, direction `(1,0)`,
after any sequence of `update(dt, enemies)` calls with nonnegative dt values
the active flag is false exactly when the distance accumulator strictly
exceeds the range: the accumulator advances at `distRate · 100` per simulated
second, where `distRate` is 1 for STRAIGHT and HOMING but 2 for PIERCING and
GROWING_ORB (whose branches move and accumulate a second time after the
common movement block).  In particular STRAIGHT and HOMING are still active
at a dt sum of exactly 2.0 (strict comparison) and expire only beyond 2.0,
while PIERCING and GROWING_ORB are already inactive after 1.9 simulated
seconds (their threshold is a dt sum of 1.0). -/
theorem C1_range_expiry_amended (T : TrigModel) (k : String)
    (hk : k = "STRAIGHT" ∨ k = "HOMING" ∨ k = "PIERCING" ∨ k = "GROWING_ORB")
    (ow : Option Owner) (dmg : ℚ) (pt : String) (props : TrajProps)
    (hp : props.type_ = some k)
    (steps : List (ℚ × List Enemy)) (hdts : ∀ s ∈ steps, 0 ≤ s.1) :
    (runSteps T (Projectile.init T ow 0 0 1 0 dmg 100 200 pt props)
      steps).active
      = decide (distRate k * 100 * (steps.map Prod.fst).sum ≤ 200) := by
  have h := init_scalar T ow 0 0 1 0 dmg 100 200 pt props
  have htype :
      Projectile.trajectory_type
        (Projectile.init T ow 0 0 1 0 dmg 100 200 pt props) = k := by
    rw [h.2.2.2.2, hp]
    rfl
  rw [rangeRun T steps _ (by rw [htype]; exact hk) h.1
    (by rw [h.2.2.1]; norm_num) hdts
    (by rw [h.2.1, h.2.2.2.1]; norm_num)]
  rw [h.2.1, h.2.2.1, h.2.2.2.1, htype, zero_add]

/-- C1 (witness): the amended claim instantiated for a STRAIGHT projectile
and two updates of one second each. -/
theorem C1_witness :
    (runSteps T0 (Projectile.init T0 none 0 0 1 0 10 100 200 "spell"
      { type_ := some "STRAIGHT" })
      [((1 : ℚ), ([] : List Enemy)), ((1 : ℚ), ([] : List Enemy))]).active
      = decide (distRate "STRAIGHT" * 100
          * (([((1 : ℚ), ([] : List Enemy)),
              ((1 : ℚ), ([] : List Enemy))].map Prod.fst).sum) ≤ 200) :=
  C1_range_expiry_amended T0 "STRAIGHT" (Or.inl rfl) none 10 "spell"
    { type_ := some "STRAIGHT" } rfl
    [((1 : ℚ), ([] : List Enemy)), ((1 : ℚ), ([] : List Enemy))]
    (by
      intro s hs
      rcases List.mem_cons.mp hs with h | h
      · rw [h]
        exact zero_le_one
      · rw [List.mem_singleton.mp h]
        exact zero_le_one)

/-! ## Claim C3: FORKING with no configured child -/

theorem moveStep_dist (p : Projectile) (dt : ℚ) :
    (moveStep p dt).distance_traveled = p.distance_traveled + p.speed * dt := rfl

theorem moveStep_speed (p : Projectile) (dt : ℚ) :
    (moveStep p dt).speed = p.speed := rfl

theorem moveStep_active (p : Projectile) (dt : ℚ) :
    (moveStep p dt).active = p.active := rfl

theorem moveStep_traj (p : Projectile) (dt : ℚ) :
    (moveStep p dt).trajectory_type = p.trajectory_type := rfl

theorem moveStep_range (p : Projectile) (dt : ℚ) :
    (moveStep p dt).range_ = p.range_ := rfl

theorem moveStep_x (p : Projectile) (dt : ℚ) :
    (moveStep p dt).x = p.x + p.dx * p.speed * dt := rfl

theorem moveStep_y (p : Projectile) (dt : ℚ) :
    (moveStep p dt).y = p.y + p.dy * p.speed * dt := rfl

theorem moveStep_dx (p : Projectile) (dt : ℚ) :
    (moveStep p dt).dx = p.dx := rfl

theorem moveStep_dy (p : Projectile) (dt : ℚ) :
    (moveStep p dt).dy = p.dy := rfl

/-- A FORKING projectile with the DISTANCE trigger and no configured child
spell: one `update` is exactly the common movement (no range check — the
common block exempts FORKING, and the branch's own range check sits behind an
`elif` that is unreachable while `has_forked` is false). -/
theorem update_forkingNoChild (T : TrigModel) (p : Projectile) (dt : ℚ)
    (en : List Enemy) (hk : p.trajectory_type = "FORKING")
    (ha : p.active = true) (hnf : p.has_forked = false)
    (hchild : p.child_spell_id = none)
    (hcond : p.fork_condition_type = "DISTANCE") :
    p.update T dt en = (moveStep p dt, en, none) := by
  rw [update_forkingKind T p dt en hk ha, commonMove_forking T p dt en hk]
  unfold forkingBranch
  dsimp only
  have hF : (moveStep p dt).has_forked = false := hnf
  have hT : ¬((moveStep p dt).fork_condition_type = "TIMER") := by
    show ¬(p.fork_condition_type = "TIMER")
    rw [hcond]
    decide
  have hOF : ¬((moveStep p dt).fork_condition_type = "ON_FIRST_HIT" ∧
      (moveStep p dt).fork_now_on_hit_signal = true) := by
    intro hcontra
    have h1 := hcontra.1
    rw [show (moveStep p dt).fork_condition_type = p.fork_condition_type
      from rfl, hcond] at h1
    exact absurd h1 (by decide)
  have hD : (moveStep p dt).fork_condition_type = "DISTANCE" := hcond
  have hC : (moveStep p dt).child_spell_id = none := hchild
  simp only [if_pos hF, if_neg hT, if_neg hOF, if_pos hD, hC]
  cases hfn : decide ((moveStep p dt).distance_traveled
      ≥ (moveStep p dt).fork_condition_value) <;> rfl

/-- C3 (code-bug evaluation): a FORKING projectile with no configured
`child_spell_id` (trigger DISTANCE with the default threshold 150,
speed=100, range=200) never produces children, but contrary to claim and
specification it also never expires by range: after three `update(1.0, [])`
calls its distance accumulator is 300, well beyond its range of 200, yet it
is still active.  The common movement block exempts FORKING from the range
check (line 207) and the branch's own range check (line 422) is dead code
while `has_forked` is false (and `has_forked` can only become true when a
child spell is configured), contradicting the comment on that line. -/
theorem C3_forking_no_child_never_expires :
    (runSteps T0 (Projectile.init T0 none 0 0 1 0 10 100 200 "spell"
      { type_ := some "FORKING" }) [(1, []), (1, []), (1, [])]).active
        = true ∧
    (runSteps T0 (Projectile.init T0 none 0 0 1 0 10 100 200 "spell"
      { type_ := some "FORKING" })
        [(1, []), (1, []), (1, [])]).distance_traveled = 300 ∧
    (runSteps T0 (Projectile.init T0 none 0 0 1 0 10 100 200 "spell"
      { type_ := some "FORKING" }) [(1, []), (1, []), (1, [])]).range_
        = 200 := by
  have h := init_scalar T0 none 0 0 1 0 10 100 200 "spell"
    { type_ := some "FORKING" }
  set p0 := Projectile.init T0 none 0 0 1 0 10 100 200 "spell"
    { type_ := some "FORKING" } with hp0
  have e1 : Projectile.update T0 p0 1 [] = (moveStep p0 1, [], none) :=
    update_forkingNoChild T0 p0 1 [] rfl rfl rfl rfl rfl
  have e2 : Projectile.update T0 (moveStep p0 1) 1 []
      = (moveStep (moveStep p0 1) 1, [], none) :=
    update_forkingNoChild T0 _ 1 [] rfl rfl rfl rfl rfl
  have e3 : Projectile.update T0 (moveStep (moveStep p0 1) 1) 1 []
      = (moveStep (moveStep (moveStep p0 1) 1) 1, [], none) :=
    update_forkingNoChild T0 _ 1 [] rfl rfl rfl rfl rfl
  simp only [runSteps_cons, runSteps_nil]
  rw [e1]
  dsimp only
  rw [e2]
  dsimp only
  rw [e3]
  dsimp only
  refine ⟨rfl, ?_, rfl⟩
  simp only [moveStep_dist, moveStep_speed]
  rw [h.2.1, h.2.2.1]
  norm_num

/-! ## Claim C7: PIERCING on_hit_enemy idempotence and exhaustion -/

/-- Run a sequence of `on_hit_enemy` calls, each with its own struck enemy
and surrounding enemy list. -/
def runHits (T : TrigModel) (p : Projectile)
    (hits : List (Enemy × List Enemy)) : Projectile :=
  hits.foldl (fun q g => q.onHitEnemy T g.1 g.2) p

theorem onHit_piercing (T : TrigModel) (p : Projectile) (e : Enemy)
    (all : List Enemy) (hk : p.trajectory_type = "PIERCING") :
    p.onHitEnemy T e all =
      (if e.id ∈ p.hit_enemy_ids then p
       else if p.hit_enemies_count + 1 ≥ p.pierce_count then
        { p with
          hit_enemy_ids := insert e.id p.hit_enemy_ids,
          hit_enemies_count := p.hit_enemies_count + 1,
          active := false }
       else
        { p with
          hit_enemy_ids := insert e.id p.hit_enemy_ids,
          hit_enemies_count := p.hit_enemies_count + 1 }) := by
  unfold Projectile.onHitEnemy
  rw [if_neg (show ¬(p.trajectory_type = "CHAIN") from by rw [hk]; decide),
    if_pos hk]

theorem onHit_piercing_mem (T : TrigModel) (q : Projectile) (e : Enemy)
    (all2 : List Enemy) (hkq : q.trajectory_type = "PIERCING")
    (hq : e.id ∈ q.hit_enemy_ids) : q.onHitEnemy T e all2 = q := by
  rw [onHit_piercing T q e all2 hkq, if_pos hq]

theorem onHit_piercing_idem (T : TrigModel) (p : Projectile) (e : Enemy)
    (all all2 : List Enemy) (hk : p.trajectory_type = "PIERCING") :
    (p.onHitEnemy T e all).onHitEnemy T e all2 = p.onHitEnemy T e all := by
  rw [onHit_piercing T p e all hk]
  by_cases hmem : e.id ∈ p.hit_enemy_ids
  · rw [if_pos hmem]
    exact onHit_piercing_mem T p e all2 hk hmem
  · rw [if_neg hmem]
    by_cases hcnt : p.hit_enemies_count + 1 ≥ p.pierce_count
    · rw [if_pos hcnt]
      exact onHit_piercing_mem T _ e all2 hk
        (Finset.mem_insert_self e.id p.hit_enemy_ids)
    · rw [if_neg hcnt]
      exact onHit_piercing_mem T _ e all2 hk
        (Finset.mem_insert_self e.id p.hit_enemy_ids)

theorem pierceRun (T : TrigModel) (L : List (Enemy × List Enemy)) :
    ∀ p : Projectile, p.trajectory_type = "PIERCING" →
    p.hit_enemies_count = p.hit_enemy_ids.card →
    p.active = decide (p.hit_enemy_ids.card < p.pierce_count) →
    (runHits T p L).hit_enemy_ids
        = p.hit_enemy_ids ∪ (L.map (fun g => g.1.id)).toFinset ∧
    (runHits T p L).active
        = decide ((p.hit_enemy_ids
            ∪ (L.map (fun g => g.1.id)).toFinset).card < p.pierce_count) := by
  induction L with
  | nil =>
    intro p _ _ ha
    refine ⟨by simp [runHits], ?_⟩
    simp only [runHits, List.foldl_nil, List.map_nil, List.toFinset_nil,
      Finset.union_empty]
    exact ha
  | cons g L ih =>
    intro p hk hc ha
    have hrun : runHits T p (g :: L) = runHits T (p.onHitEnemy T g.1 g.2) L :=
      rfl
    rw [hrun, onHit_piercing T p g.1 g.2 hk]
    by_cases hmem : g.1.id ∈ p.hit_enemy_ids
    · rw [if_pos hmem]
      obtain ⟨h1, h2⟩ := ih p hk hc ha
      have habs : p.hit_enemy_ids
          ∪ ((g :: L).map (fun x => x.1.id)).toFinset
          = p.hit_enemy_ids ∪ (L.map (fun x => x.1.id)).toFinset := by
        simp only [List.map_cons, List.toFinset_cons, Finset.union_insert,
          Finset.insert_eq_self]
        exact Finset.mem_union_left _ hmem
      rw [habs]
      exact ⟨h1, h2⟩
    · rw [if_neg hmem]
      have hcard : (insert g.1.id p.hit_enemy_ids).card
          = p.hit_enemy_ids.card + 1 :=
        Finset.card_insert_of_not_mem hmem
      have hset : insert g.1.id p.hit_enemy_ids
          ∪ (L.map (fun x => x.1.id)).toFinset
          = p.hit_enemy_ids ∪ ((g :: L).map (fun x => x.1.id)).toFinset := by
        simp only [List.map_cons, List.toFinset_cons, Finset.union_insert,
          Finset.insert_union]
      by_cases hcnt : p.hit_enemies_count + 1 ≥ p.pierce_count
      · rw [if_pos hcnt]
        obtain ⟨h1, h2⟩ := ih
          { p with
            hit_enemy_ids := insert g.1.id p.hit_enemy_ids,
            hit_enemies_count := p.hit_enemies_count + 1,
            active := false }
          hk
          (by dsimp only; rw [hc, hcard])
          (by
            dsimp only
            symm
            rw [decide_eq_false_iff_not, not_lt, hcard]
            rw [hc] at hcnt
            exact hcnt)
        dsimp only at h1 h2
        rw [h1, h2, hset]
        exact ⟨rfl, rfl⟩
      · rw [if_neg hcnt]
        obtain ⟨h1, h2⟩ := ih
          { p with
            hit_enemy_ids := insert g.1.id p.hit_enemy_ids,
            hit_enemies_count := p.hit_enemies_count + 1 }
          hk
          (by dsimp only; rw [hc, hcard])
          (by
            dsimp only
            rw [ha, hcard]
            have hlt : p.hit_enemy_ids.card + 1 < p.pierce_count := by
              rw [hc] at hcnt
              omega
            rw [decide_eq_true (Nat.lt_of_succ_lt hlt), decide_eq_true hlt])
        dsimp only at h1 h2
        rw [h1, h2, hset]
        exact ⟨rfl, rfl⟩

theorem init_piercing_char (T : TrigModel) (ow : Option Owner)
    (sx sy dx dy dmg sp rg : ℚ) (pt : String) (props : TrajProps)
    (hp : props.type_ = some "PIERCING") :
    (Projectile.init T ow sx sy dx dy dmg sp rg pt props).trajectory_type
      = "PIERCING" ∧
    (Projectile.init T ow sx sy dx dy dmg sp rg pt props).pierce_count
      = props.pierce_count.getD 3 ∧
    (Projectile.init T ow sx sy dx dy dmg sp rg pt props).hit_enemy_ids = ∅ ∧
    (Projectile.init T ow sx sy dx dy dmg sp rg pt props).hit_enemies_count
      = 0 ∧
    (Projectile.init T ow sx sy dx dy dmg sp rg pt props).active = true := by
  unfold Projectile.init
  rw [hp]
  dsimp only [Option.getD]
  simp only [String.reduceEq, reduceIte]
  exact ⟨rfl, rfl, rfl, rfl, rfl⟩

/-- C7: for every PIERCING projectile, a second `on_hit_enemy` call with the
same enemy identity is a complete no-op (only one pierce slot is consumed),
and a freshly constructed PIERCING projectile with `pierce_count = 3` is
inactive after a sequence of `on_hit_enemy` calls exactly when the struck
identities include at least 3 distinct enemy ids. -/
theorem C7_pierce_idempotence_and_exhaustion (T : TrigModel)
    (p : Projectile) (hk : p.trajectory_type = "PIERCING")
    (e : Enemy) (all all2 : List Enemy)
    (ow : Option Owner) (sx sy dx dy dmg sp rg : ℚ) (pt : String)
    (props : TrajProps) (hp : props.type_ = some "PIERCING")
    (hpc : props.pierce_count = some 3)
    (L : List (Enemy × List Enemy)) :
    ((p.onHitEnemy T e all).onHitEnemy T e all2 = p.onHitEnemy T e all) ∧
    ((runHits T (Projectile.init T ow sx sy dx dy dmg sp rg pt props) L).active
      = false ↔ 3 ≤ (L.map (fun g => g.1.id)).toFinset.card) := by
  obtain ⟨h1, h2, h3, h4, h5⟩ :=
    init_piercing_char T ow sx sy dx dy dmg sp rg pt props hp
  refine ⟨onHit_piercing_idem T p e all all2 hk, ?_⟩
  obtain ⟨_, hact⟩ := pierceRun T L
    (Projectile.init T ow sx sy dx dy dmg sp rg pt props) h1
    (by rw [h4, h3]; rfl)
    (by rw [h5, h3, h2, hpc]; simp)
  rw [hact, h3, h2, hpc]
  simp only [Option.getD_some, Finset.empty_union]
  constructor
  · intro hfalse
    by_contra hlt
    rw [decide_eq_false_iff_not, not_lt] at hfalse
    omega
  · intro hge
    rw [decide_eq_false_iff_not, not_lt]
    exact hge

/-- Concrete enemies used to instantiate hypothesis-bearing theorems. -/
def eA : Enemy := ⟨1, true, ⟨0, 0, 10, 10⟩, 50⟩

/-- A second concrete enemy. -/
def eB : Enemy := ⟨2, true, ⟨40, 0, 10, 10⟩, 50⟩

/-- A third concrete enemy. -/
def eC : Enemy := ⟨3, true, ⟨80, 0, 10, 10⟩, 50⟩

/-- A concrete hit sequence with three distinct enemy identities. -/
def hitsABC : List (Enemy × List Enemy) := [(eA, []), (eB, []), (eC, [])]

/-- A concrete fresh PIERCING projectile with a pierce budget of 3. -/
def pPierce3 : Projectile :=
  Projectile.init T0 none 0 0 1 0 10 100 200 "s"
    { type_ := some "PIERCING", pierce_count := some 3 }

/-- C7 (witness): the theorem instantiated for a concrete PIERCING
projectile, a repeated strike on enemy id 1, and a hit sequence with three
distinct enemy ids. -/
theorem C7_witness :
    ((pPierce3.onHitEnemy T0 eA []).onHitEnemy T0 eA []
      = pPierce3.onHitEnemy T0 eA []) ∧
    ((runHits T0 pPierce3 hitsABC).active = false ↔
      3 ≤ (hitsABC.map (fun g => g.1.id)).toFinset.card) :=
  C7_pierce_idempotence_and_exhaustion T0 pPierce3 rfl eA [] [] none
    0 0 1 0 10 100 200 "s"
    { type_ := some "PIERCING", pierce_count := some 3 } rfl rfl hitsABC

/-! ## Claim C8: GROUND_AOE damage exactly once, on_hit no-op -/

theorem onHit_groundAoe (T : TrigModel) (p : Projectile) (e : Enemy)
    (all : List Enemy) (hk : p.trajectory_type = "GROUND_AOE") :
    p.onHitEnemy T e all = p := by
  unfold Projectile.onHitEnemy
  rw [if_neg (show ¬(p.trajectory_type = "CHAIN") from by rw [hk]; decide),
    if_neg (show ¬(p.trajectory_type = "PIERCING") from by rw [hk]; decide),
    if_pos hk]

theorem update_aoeExplodingFresh (T : TrigModel) (p : Projectile) (dt : ℚ)
    (en : List Enemy) (hk : p.trajectory_type = "GROUND_AOE")
    (ha : p.active = true) (hst : p.aoe_state = "exploding")
    (hap : p.aoe_damage_applied = false) :
    p.update T dt en =
      (if p.explosion_timer - dt ≤ 0 then
        { p with
          aoe_damage_applied := true,
          explosion_timer := p.explosion_timer - dt,
          active := false }
      else
        { p with
          aoe_damage_applied := true,
          explosion_timer := p.explosion_timer - dt },
      en.map (fun e =>
        if e.active = true ∧ distSqTo p.x p.y e ≤ p.aoe_radius ^ 2 then
          e.takeDamage p.aoe_damage
        else e),
      none) := by
  rw [update_groundAoeKind T p dt en hk ha]
  unfold groundAoeBranch
  rw [if_neg (show ¬(p.aoe_state = "traveling") from by rw [hst]; decide),
    if_neg (show ¬(p.aoe_state = "arrived") from by rw [hst]; decide),
    if_pos hst]
  dsimp only
  simp only [if_pos hap]

theorem update_aoeExplodingStale (T : TrigModel) (p : Projectile) (dt : ℚ)
    (en : List Enemy) (hk : p.trajectory_type = "GROUND_AOE")
    (ha : p.active = true) (hst : p.aoe_state = "exploding")
    (hap : p.aoe_damage_applied = true) :
    p.update T dt en =
      (if p.explosion_timer - dt ≤ 0 then
        { p with explosion_timer := p.explosion_timer - dt, active := false }
      else { p with explosion_timer := p.explosion_timer - dt },
      en, none) := by
  rw [update_groundAoeKind T p dt en hk ha]
  unfold groundAoeBranch
  rw [if_neg (show ¬(p.aoe_state = "traveling") from by rw [hst]; decide),
    if_neg (show ¬(p.aoe_state = "arrived") from by rw [hst]; decide),
    if_pos hst]
  dsimp only
  simp only [hap, Bool.true_eq_false, if_false, reduceIte]

theorem runFull_nil (T : TrigModel) (p : Projectile) (en : List Enemy) :
    runFull T p en [] = (p, en) := rfl

theorem runFull_cons (T : TrigModel) (p : Projectile) (en : List Enemy)
    (d : ℚ) (rest : List ℚ) :
    runFull T p en (d :: rest) =
      runFull T (p.update T d en).1 (p.update T d en).2.1 rest := rfl

/-- Once a GROUND_AOE projectile in the exploding state has applied its
damage, no later `update` call changes the enemy list again. -/
theorem aoeRunFrozen (T : TrigModel) (dts : List ℚ) :
    ∀ (p : Projectile) (en : List Enemy),
    p.trajectory_type = "GROUND_AOE" → p.aoe_state = "exploding" →
    p.aoe_damage_applied = true →
    (runFull T p en dts).2 = en := by
  induction dts with
  | nil =>
    intro p en _ _ _
    rfl
  | cons d rest ih =>
    intro p en hk hst hap
    rw [runFull_cons]
    by_cases ha : p.active = true
    · rw [update_aoeExplodingStale T p d en hk ha hst hap]
      by_cases het : p.explosion_timer - d ≤ 0
      · rw [if_pos het]
        exact ih _ en hk hst hap
      · rw [if_neg het]
        exact ih _ en hk hst hap
    · rw [update_notActive T p d en (Bool.not_eq_true _ ▸ ha)]
      exact ih p en hk hst hap

/-- C8: for a GROUND_AOE projectile that has just entered the exploding state
(damage not yet applied), any nonempty sequence of `update` calls applies
`take_damage(aoe_damage)` exactly once to each enemy that was active and
within `aoe_radius` of the explosion point, and never again afterwards; and
`on_hit_enemy` for GROUND_AOE never changes the projectile (no damage, no
deactivation). -/
theorem C8_groundAoe_damage_once (T : TrigModel) (p : Projectile)
    (hk : p.trajectory_type = "GROUND_AOE") (ha : p.active = true)
    (hst : p.aoe_state = "exploding") (hap : p.aoe_damage_applied = false)
    (en : List Enemy) (d : ℚ) (rest : List ℚ) :
    (runFull T p en (d :: rest)).2
      = en.map (fun e =>
          if e.active = true ∧ distSqTo p.x p.y e ≤ p.aoe_radius ^ 2 then
            e.takeDamage p.aoe_damage
          else e) ∧
    (∀ (q : Projectile) (e : Enemy) (all : List Enemy),
      q.trajectory_type = "GROUND_AOE" → q.onHitEnemy T e all = q) := by
  refine ⟨?_, fun q e all hq => onHit_groundAoe T q e all hq⟩
  rw [runFull_cons, update_aoeExplodingFresh T p d en hk ha hst hap]
  by_cases het : p.explosion_timer - d ≤ 0
  · rw [if_pos het]
    exact aoeRunFrozen T rest _ _ hk hst rfl
  · rw [if_neg het]
    exact aoeRunFrozen T rest _ _ hk hst rfl

/-- A concrete GROUND_AOE projectile sitting at the start of its exploding
window (explosion timer 0.2, damage not yet applied). -/
def pAoeExploding : Projectile :=
  { owner := none, x := 0, y := 0, dx := 0, dy := 0, damage := 10,
    speed := 100, range_ := 200, projectile_type := "s",
    props := { type_ := some "GROUND_AOE" },
    trajectory_type := "GROUND_AOE", rect := ⟨-6, -6, 12, 12⟩,
    target_x := 0, target_y := 0, travel_speed := 500, aoe_radius := 75,
    aoe_damage := 30, aoe_duration := 1/5, delay_after_arrival := 3/10,
    marker_radius := 6, aoe_state := "exploding", explosion_timer := 1/5 }

/-- C8 (witness): the theorem instantiated at a concrete exploding GROUND_AOE
projectile, one nearby enemy, and two update calls of 0.1 s. -/
theorem C8_witness :
    (runFull T0 pAoeExploding [eA] [1/10, 1/10]).2
      = [eA].map (fun e =>
          if e.active = true ∧ distSqTo pAoeExploding.x pAoeExploding.y e
              ≤ pAoeExploding.aoe_radius ^ 2 then
            e.takeDamage pAoeExploding.aoe_damage
          else e) ∧
    (∀ (q : Projectile) (e : Enemy) (all : List Enemy),
      q.trajectory_type = "GROUND_AOE" → q.onHitEnemy T0 e all = q) :=
  C8_groundAoe_damage_once T0 pAoeExploding rfl rfl rfl rfl [eA] (1/10) [1/10]

/-! ## Claim C4: the core reports hits; only the GROUND_AOE explosion
mutates enemy state -/

theorem orbitingBranch_en (T : TrigModel) (p : Projectile) (dt : ℚ)
    (en : List Enemy) : (orbitingBranch T p dt en).2.1 = en := by
  unfold orbitingBranch
  cases p.owner
  · rfl
  · dsimp only
    split <;> rfl

theorem sineWaveBranch_en (T : TrigModel) (p : Projectile) (dt : ℚ)
    (en : List Enemy) : (sineWaveBranch T p dt en).2.1 = en := rfl

theorem boomerangBranch_en (p : Projectile) (dt : ℚ) (en : List Enemy) :
    (boomerangBranch p dt en).2.1 = en := by
  unfold boomerangBranch
  dsimp only
  (repeat' split) <;> rfl

theorem chainBranch_en (T : TrigModel) (p : Projectile) (dt : ℚ)
    (en : List Enemy) : (chainBranch T p dt en).2.1 = en := rfl

theorem piercingBranch_en (p : Projectile) (dt : ℚ) (en : List Enemy) :
    (piercingBranch p dt en).2.1 = en := rfl

theorem forkingBranch_en (T : TrigModel) (p : Projectile) (dt : ℚ)
    (en : List Enemy) : (forkingBranch T p dt en).2.1 = en := by
  unfold forkingBranch
  dsimp only
  (repeat' split) <;> rfl

theorem spiralBranch_en (T : TrigModel) (p : Projectile) (dt : ℚ)
    (en : List Enemy) : (spiralBranch T p dt en).2.1 = en := by
  unfold spiralBranch
  dsimp only
  split <;> rfl

theorem growingOrbBranch_en (p : Projectile) (dt : ℚ) (en : List Enemy) :
    (growingOrbBranch p dt en).2.1 = en :=
  (growingOrbBranch_scalar p dt en).1

theorem groundAoeBranch_en (T : TrigModel) (p : Projectile) (dt : ℚ)
    (en : List Enemy)
    (h : ¬(p.aoe_state = "exploding" ∧ p.aoe_damage_applied = false)) :
    (groundAoeBranch T p dt en).2.1 = en := by
  unfold groundAoeBranch
  dsimp only
  by_cases h1 : p.aoe_state = "traveling"
  · rw [if_pos h1]
    split <;> rfl
  · rw [if_neg h1]
    by_cases h2 : p.aoe_state = "arrived"
    · rw [if_pos h2]
      split <;> rfl
    · rw [if_neg h2]
      by_cases h3 : p.aoe_state = "exploding"
      · have happ : ¬(p.aoe_damage_applied = false) := fun hf => h ⟨h3, hf⟩
        rw [if_pos h3]
        simp only [if_neg happ]
      · rw [if_neg h3]

theorem update_orbitingKind (T : TrigModel) (p : Projectile) (dt : ℚ)
    (en : List Enemy) (hk : p.trajectory_type = "ORBITING")
    (ha : p.active = true) :
    p.update T dt en = orbitingBranch T p dt en := by
  rw [Projectile.update]
  simp only [ha, Bool.true_eq_false, if_false, commonMove_type, hk,
    String.reduceEq, if_true, reduceIte,
    commonMove_skips T p dt en (Or.inl hk)]

theorem update_sineKind (T : TrigModel) (p : Projectile) (dt : ℚ)
    (en : List Enemy) (hk : p.trajectory_type = "SINE_WAVE")
    (ha : p.active = true) :
    p.update T dt en = sineWaveBranch T (commonMove T p dt en) dt en := by
  rw [Projectile.update]
  simp only [ha, Bool.true_eq_false, if_false, commonMove_type, hk,
    String.reduceEq, if_true, reduceIte]

theorem update_spiralKind (T : TrigModel) (p : Projectile) (dt : ℚ)
    (en : List Enemy) (hk : p.trajectory_type = "SPIRAL")
    (ha : p.active = true) :
    p.update T dt en = spiralBranch T (commonMove T p dt en) dt en := by
  rw [Projectile.update]
  simp only [ha, Bool.true_eq_false, if_false, commonMove_type, hk,
    String.reduceEq, if_true, reduceIte]

theorem update_otherKind (T : TrigModel) (p : Projectile) (dt : ℚ)
    (en : List Enemy) (ha : p.active = true)
    (h1 : p.trajectory_type ≠ "ORBITING")
    (h2 : p.trajectory_type ≠ "SINE_WAVE")
    (h3 : p.trajectory_type ≠ "BOOMERANG")
    (h4 : p.trajectory_type ≠ "CHAIN")
    (h5 : p.trajectory_type ≠ "PIERCING")
    (h6 : p.trajectory_type ≠ "GROUND_AOE")
    (h7 : p.trajectory_type ≠ "FORKING")
    (h8 : p.trajectory_type ≠ "SPIRAL")
    (h9 : p.trajectory_type ≠ "GROWING_ORB") :
    p.update T dt en = (commonMove T p dt en, en, none) := by
  rw [Projectile.update]
  simp only [ha, Bool.true_eq_false, if_false, commonMove_type,
    if_neg h1, if_neg h2, if_neg h3, if_neg h4, if_neg h5, if_neg h6,
    if_neg h7, if_neg h8, if_neg h9]

/-- C4 (counterexample): contrary to the claim that the core never mutates
enemy HP during `Projectile.update`, the GROUND_AOE exploding branch calls
`take_damage` directly on every active in-radius enemy: one `update(0.1, .)`
on an exploding GROUND_AOE projectile (AOE damage 30) drops a nearby enemy's
`current_hp` from 50 to 20. -/
theorem C4_counterexample :
    ((pAoeExploding.update T0 (1/10) [eA]).2.1.map
      (fun e => e.current_hp)) = [20] := by
  rw [update_aoeExplodingFresh T0 pAoeExploding (1/10) [eA] rfl rfl rfl rfl]
  show ([eA].map _).map _ = _
  simp only [List.map_cons, List.map_nil]
  rw [if_pos ⟨rfl, by
    show ((5 : ℚ) - 0) ^ 2 + ((5 : ℚ) - 0) ^ 2 ≤ (75 : ℚ) ^ 2
    norm_num⟩]
  show [(50 : ℚ) - 30] = [20]
  norm_num

/-- C4 (amended): the combat-resolution pass (`check_enemy_collisions` /
`on_hit_enemy`) only reports hits and never mutates enemies — in the
embedding their results carry no enemy output at all, mirroring the source,
which never writes to an enemy there — but `Projectile.update` is NOT
enemy-pure: it leaves the enemy list unchanged in every case EXCEPT the
GROUND_AOE exploding branch with the damage flag still clear, where it
calls `take_damage` directly.  Formally: whenever the projectile is not a
GROUND_AOE in state "exploding" with `aoe_damage_applied = false`, the
enemy list returned by `update` is exactly the input list. -/
theorem C4_update_enemy_frame_amended (T : TrigModel) (p : Projectile)
    (dt : ℚ) (en : List Enemy)
    (h : ¬(p.trajectory_type = "GROUND_AOE" ∧ p.aoe_state = "exploding" ∧
          p.aoe_damage_applied = false)) :
    (p.update T dt en).2.1 = en := by
  by_cases ha : p.active = true
  · by_cases h1 : p.trajectory_type = "ORBITING"
    · rw [update_orbitingKind T p dt en h1 ha]
      exact orbitingBranch_en T p dt en
    · by_cases h2 : p.trajectory_type = "SINE_WAVE"
      · rw [update_sineKind T p dt en h2 ha]
        exact sineWaveBranch_en T (commonMove T p dt en) dt en
      · by_cases h3 : p.trajectory_type = "BOOMERANG"
        · rw [update_boomerangKind T p dt en h3 ha]
          exact boomerangBranch_en (commonMove T p dt en) dt en
        · by_cases h4 : p.trajectory_type = "CHAIN"
          · rw [update_chainKind T p dt en h4 ha]
            exact chainBranch_en T (commonMove T p dt en) dt en
          · by_cases h5 : p.trajectory_type = "PIERCING"
            · rw [update_piercingKind T p dt en h5 ha]
              exact piercingBranch_en (commonMove T p dt en) dt en
            · by_cases h6 : p.trajectory_type = "GROUND_AOE"
              · rw [update_groundAoeKind T p dt en h6 ha]
                exact groundAoeBranch_en T p dt en
                  (fun hc => h ⟨h6, hc.1, hc.2⟩)
              · by_cases h7 : p.trajectory_type = "FORKING"
                · rw [update_forkingKind T p dt en h7 ha]
                  exact forkingBranch_en T (commonMove T p dt en) dt en
                · by_cases h8 : p.trajectory_type = "SPIRAL"
                  · rw [update_spiralKind T p dt en h8 ha]
                    exact spiralBranch_en T (commonMove T p dt en) dt en
                  · by_cases h9 : p.trajectory_type = "GROWING_ORB"
                    · rw [update_growingOrbKind T p dt en h9 ha]
                      exact growingOrbBranch_en (commonMove T p dt en) dt en
                    · rw [update_otherKind T p dt en ha h1 h2 h3 h4 h5 h6
                        h7 h8 h9]
  · rw [update_notActive T p dt en (by simpa using ha)]

/-- C4 witness: the amended frame property at a concrete input — a PIERCING
projectile's update leaves the enemy list untouched. -/
theorem C4_witness : (pPierce3.update T0 1 [eA]).2.1 = [eA] :=
  C4_update_enemy_frame_amended T0 pPierce3 1 [eA]
    (fun hc => absurd hc.1 (by decide))

/-! ## Claim C2: boomerang turn and return-leg deactivation -/

/-- Outward phase of the BOOMERANG branch when the flip threshold is met:
move, then reverse direction and reset the distance accumulator. -/
theorem boomerangBranch_turn (p : Projectile) (dt : ℚ) (en : List Enemy)
    (hr : p.returning = false)
    (hd : p.distance_traveled + p.speed * dt ≥ p.range_) :
    boomerangBranch p dt en =
      ({ moveStep p dt with
         returning := true, dx := -p.dx, dy := -p.dy,
         distance_traveled := 0 }, en, none) := by
  unfold boomerangBranch
  rw [if_pos hr]
  dsimp only
  have hd' : (moveStep p dt).distance_traveled ≥ (moveStep p dt).range_ := by
    rw [moveStep_dist, moveStep_range]; exact hd
  rw [if_pos hd']
  rfl

/-- The BOOMERANG branch never re-activates a deactivated projectile. -/
theorem boomerangBranch_inactive (p : Projectile) (dt : ℚ) (en : List Enemy)
    (h : p.active = false) : (boomerangBranch p dt en).1.active = false := by
  unfold boomerangBranch
  dsimp only
  (repeat' split) <;> first | rfl | exact h

/-- Return phase with no owner and the 1.5x fallback limit not reached:
plain movement, no deactivation inside the branch. -/
theorem boomerangBranch_return_noOwner (p : Projectile) (dt : ℚ)
    (en : List Enemy) (hr : ¬(p.returning = false)) (ho : p.owner = none)
    (hd : ¬((moveStep p dt).distance_traveled
      > (moveStep p dt).range_ * 1.5)) :
    boomerangBranch p dt en = (moveStep p dt, en, none) := by
  unfold boomerangBranch
  rw [if_neg hr]
  dsimp only
  have ho' : (moveStep p dt).owner = none := ho
  rw [ho']
  dsimp only
  rw [if_neg hd]

/-- Return phase with an owner whose inflated rect the moved projectile
overlaps: the branch deactivates the projectile. -/
theorem boomerangBranch_ownerHit (p : Projectile) (dt : ℚ) (en : List Enemy)
    (ow : Owner) (hr : ¬(p.returning = false)) (ho : p.owner = some ow)
    (hcol : (moveStep p dt).rect.collide
      (ow.rect.inflate (moveStep p dt).rect.w (moveStep p dt).rect.h)
        = true) :
    (boomerangBranch p dt en).1.active = false := by
  unfold boomerangBranch
  rw [if_neg hr]
  dsimp only
  have ho' : (moveStep p dt).owner = some ow := ho
  rw [ho']
  dsimp only
  rw [if_pos hcol]
  split <;> rfl

/-- C2 (amended): one-step behaviour of an active BOOMERANG projectile.
Outward phase: because the common movement block moves the projectile and
accumulates distance and the BOOMERANG branch then does both AGAIN, one
update advances the position and the accumulator by 2 x speed x dt, and the
flip (returning := true, direction exactly negated, accumulator reset to 0)
fires as soon as distance + 2 x speed x dt reaches the range — at 0.5 s for
speed=100/range=100, not at 1.0 s.  Return phase: the COMMON strict range
check (distance > range, BOOMERANG is not exempted) already deactivates the
projectile, without any owner overlap and well before the branch's own
range x 1.5 fallback; and overlap of the (twice-)moved projectile's rect
with the owner's inflated rect also deactivates it. -/
theorem C2_boomerang_amended (T : TrigModel) (p : Projectile) (dt : ℚ)
    (en : List Enemy) (hk : p.trajectory_type = "BOOMERANG")
    (ha : p.active = true) :
    (p.returning = false →
      ¬(p.distance_traveled + p.speed * dt > p.range_) →
      p.distance_traveled + p.speed * dt + p.speed * dt ≥ p.range_ →
      ((p.update T dt en).1.returning = true ∧
       (p.update T dt en).1.dx = -p.dx ∧
       (p.update T dt en).1.dy = -p.dy ∧
       (p.update T dt en).1.distance_traveled = 0 ∧
       (p.update T dt en).1.active = true ∧
       (p.update T dt en).1.x
         = p.x + p.dx * p.speed * dt + p.dx * p.speed * dt)) ∧
    (p.returning = true →
      p.distance_traveled + p.speed * dt > p.range_ →
      (p.update T dt en).1.active = false) ∧
    (∀ ow : Owner, p.returning = true → p.owner = some ow →
      ¬(p.distance_traveled + p.speed * dt > p.range_) →
      (moveStep (moveStep p dt) dt).rect.collide
        (ow.rect.inflate (moveStep (moveStep p dt) dt).rect.w
          (moveStep (moveStep p dt) dt).rect.h) = true →
      (p.update T dt en).1.active = false) := by
  have he := update_boomerangKind T p dt en hk ha
  have h1 : p.trajectory_type ≠ "ORBITING" := by rw [hk]; decide
  have h2 : p.trajectory_type ≠ "GROUND_AOE" := by rw [hk]; decide
  have h3 : p.trajectory_type ≠ "HOMING" := by rw [hk]; decide
  have h4 : p.trajectory_type ≠ "CHAIN" := by rw [hk]; decide
  have h5 : p.trajectory_type ≠ "FORKING" := by rw [hk]; decide
  have hcm := commonMove_plain T p dt en h1 h2 h3 h4 h5
  refine ⟨?_, ?_, ?_⟩
  · intro hret hd1 hd2
    rw [he, hcm, if_neg hd1,
      boomerangBranch_turn (moveStep p dt) dt en hret hd2]
    exact ⟨rfl, rfl, rfl, rfl, ha, rfl⟩
  · intro hret hd1
    rw [he, hcm, if_pos hd1]
    exact boomerangBranch_inactive _ dt en rfl
  · intro ow hret howner hd1 hcol
    rw [he, hcm, if_neg hd1]
    have hmr : (moveStep p dt).returning = true := hret
    exact boomerangBranch_ownerHit (moveStep p dt) dt en ow
      (by simp [hmr]) howner hcol

/-- A concrete BOOMERANG projectile: no owner, start (0,0), direction (1,0),
damage 10, speed 100, range 100. -/
def pBoom : Projectile :=
  Projectile.init T0 none 0 0 1 0 10 100 100 "spell"
    { type_ := some "BOOMERANG" }

/-- `pBoom` after its first `update(0.5, [])`: already turned around. -/
def qTurn : Projectile :=
  { moveStep (moveStep pBoom (1/2)) (1/2) with
    returning := true, dx := -(moveStep pBoom (1/2)).dx,
    dy := -(moveStep pBoom (1/2)).dy, distance_traveled := 0 }

/-- `qTurn` after `update(0.55, [])`: moved twice on the return leg. -/
def qR2 : Projectile := moveStep (moveStep qTurn (11/20)) (11/20)

/-- `qR2` after `update(0.01, [])`: the common range check deactivated it. -/
def qR3 : Projectile :=
  moveStep { moveStep qR2 (1/100) with active := false } (1/100)

theorem pBoom_step1 : pBoom.update T0 (1/2) [] = (qTurn, [], none) := by
  rw [update_boomerangKind T0 pBoom (1/2) [] rfl rfl,
    commonMove_plain T0 pBoom (1/2) [] (by decide) (by decide) (by decide)
      (by decide) (by decide)]
  have c1 : ¬(pBoom.distance_traveled + pBoom.speed * ((1:ℚ)/2)
      > pBoom.range_) := by
    show ¬((0:ℚ) + 100 * (1/2) > 100)
    norm_num
  rw [if_neg c1,
    boomerangBranch_turn (moveStep pBoom (1/2)) (1/2) [] rfl
      (by show (0:ℚ) + 100 * (1/2) + 100 * (1/2) ≥ 100; norm_num)]
  rfl

theorem pBoom_step2 : qTurn.update T0 (11/20) [] = (qR2, [], none) := by
  rw [update_boomerangKind T0 qTurn (11/20) [] rfl rfl,
    commonMove_plain T0 qTurn (11/20) [] (by decide) (by decide) (by decide)
      (by decide) (by decide)]
  have c2 : ¬(qTurn.distance_traveled + qTurn.speed * ((11:ℚ)/20)
      > qTurn.range_) := by
    show ¬((0:ℚ) + 100 * (11/20) > 100)
    norm_num
  rw [if_neg c2,
    boomerangBranch_return_noOwner (moveStep qTurn (11/20)) (11/20) []
      (by decide) rfl
      (by show ¬((0:ℚ) + 100 * (11/20) + 100 * (11/20) > 100 * 1.5)
          norm_num)]
  rfl

theorem pBoom_step3 : qR2.update T0 (1/100) [] = (qR3, [], none) := by
  rw [update_boomerangKind T0 qR2 (1/100) [] rfl rfl,
    commonMove_plain T0 qR2 (1/100) [] (by decide) (by decide) (by decide)
      (by decide) (by decide)]
  have c3 : qR2.distance_traveled + qR2.speed * ((1:ℚ)/100)
      > qR2.range_ := by
    show (0:ℚ) + 100 * (11/20) + 100 * (11/20) + 100 * (1/100) > 100
    norm_num
  rw [if_pos c3,
    boomerangBranch_return_noOwner
      { moveStep qR2 (1/100) with active := false } (1/100) []
      (by decide) rfl
      (by show ¬((0:ℚ) + 100 * (11/20) + 100 * (11/20) + 100 * (1/100)
            + 100 * (1/100) > 100 * 1.5)
          norm_num)]
  rfl

/-- C2 (counterexample): with `pBoom` (BOOMERANG, speed=100, range=100,
direction (1,0), no owner), (a) after a single `update(0.5, [])` the
projectile has ALREADY reversed (`returning = true`, `dx = -1`) — the claimed
outward limit at 1.0 s is reached at 0.5 s because distance accumulates at
2 x speed per update; and (b) after updates of 0.5 s, 0.55 s and 0.01 s it is
inactive with return-leg accumulator 112 and range 100, although it has no
owner at all (so no owner-rect overlap ever occurred) and 112 does not exceed
range x 1.5 = 150: the common strict range check deactivated it, contradicting
the claimed deactivation conditions. -/
theorem C2_counterexample :
    ((pBoom.update T0 (1/2) []).1.returning = true ∧
     (pBoom.update T0 (1/2) []).1.dx = -1) ∧
    ((runSteps T0 pBoom [(1/2, []), (11/20, []), (1/100, [])]).active
        = false ∧
     (runSteps T0 pBoom [(1/2, []), (11/20, []), (1/100, [])]).owner
        = none ∧
     (runSteps T0 pBoom
        [(1/2, []), (11/20, []), (1/100, [])]).distance_traveled = 112 ∧
     (runSteps T0 pBoom [(1/2, []), (11/20, []), (1/100, [])]).range_
        = 100) := by
  simp only [runSteps_cons, runSteps_nil]
  rw [pBoom_step1]
  dsimp only
  rw [pBoom_step2]
  dsimp only
  rw [pBoom_step3]
  dsimp only
  refine ⟨⟨rfl, rfl⟩, rfl, rfl, ?_, rfl⟩
  show (0:ℚ) + 100 * (11/20) + 100 * (11/20) + 100 * (1/100)
    + 100 * (1/100) = 112
  norm_num

/-- C2 witness: the amended one-step turn characterization instantiated at
`pBoom` with `dt = 0.5`. -/
theorem C2_witness :
    (pBoom.update T0 (1/2) []).1.returning = true ∧
    (pBoom.update T0 (1/2) []).1.dx = -pBoom.dx ∧
    (pBoom.update T0 (1/2) []).1.distance_traveled = 0 ∧
    (pBoom.update T0 (1/2) []).1.active = true := by
  have H := (C2_boomerang_amended T0 pBoom (1/2) [] rfl rfl).1 rfl
    (show ¬((0:ℚ) + 100 * (1/2) > 100) by norm_num)
    (show (0:ℚ) + 100 * (1/2) + 100 * (1/2) ≥ 100 by norm_num)
  exact ⟨H.1, H.2.1, H.2.2.2.1, H.2.2.2.2.1⟩

/-! ## Claim C5: manager same-frame removal/insertion ordering -/

theorem orbitingBranch_reqs (T : TrigModel) (p : Projectile) (dt : ℚ)
    (en : List Enemy) : (orbitingBranch T p dt en).2.2 = none := by
  unfold orbitingBranch
  cases p.owner
  · rfl
  · dsimp only
    split <;> rfl

theorem sineWaveBranch_reqs (T : TrigModel) (p : Projectile) (dt : ℚ)
    (en : List Enemy) : (sineWaveBranch T p dt en).2.2 = none := rfl

theorem boomerangBranch_reqs (p : Projectile) (dt : ℚ) (en : List Enemy) :
    (boomerangBranch p dt en).2.2 = none := by
  unfold boomerangBranch
  dsimp only
  (repeat' split) <;> rfl

theorem chainBranch_reqs (T : TrigModel) (p : Projectile) (dt : ℚ)
    (en : List Enemy) : (chainBranch T p dt en).2.2 = none := rfl

theorem piercingBranch_reqs (p : Projectile) (dt : ℚ) (en : List Enemy) :
    (piercingBranch p dt en).2.2 = none := rfl

theorem groundAoeBranch_reqs (T : TrigModel) (p : Projectile) (dt : ℚ)
    (en : List Enemy) : (groundAoeBranch T p dt en).2.2 = none := by
  unfold groundAoeBranch
  dsimp only
  (repeat' split) <;> rfl

theorem spiralBranch_reqs (T : TrigModel) (p : Projectile) (dt : ℚ)
    (en : List Enemy) : (spiralBranch T p dt en).2.2 = none := by
  unfold spiralBranch
  dsimp only
  split <;> rfl

theorem growingOrbBranch_reqs (p : Projectile) (dt : ℚ) (en : List Enemy) :
    (growingOrbBranch p dt en).2.2 = none :=
  (growingOrbBranch_scalar p dt en).2.1

theorem forkingBranch_forkInactive (T : TrigModel) (p : Projectile) (dt : ℚ)
    (en : List Enemy) :
    ((forkingBranch T p dt en).2.2.isSome
      && (forkingBranch T p dt en).1.active) = false := by
  unfold forkingBranch
  dsimp only
  (repeat' split) <;> rfl

/-- Whenever one `update` call returns child-spawn requests, the updated
projectile has deactivated itself (only the FORKING fork arm emits requests,
and it sets `active := false`). -/
theorem update_forkInactive (T : TrigModel) (p : Projectile) (dt : ℚ)
    (en : List Enemy) :
    ((p.update T dt en).2.2.isSome && (p.update T dt en).1.active)
      = false := by
  by_cases ha : p.active = true
  · by_cases h1 : p.trajectory_type = "ORBITING"
    · rw [update_orbitingKind T p dt en h1 ha, orbitingBranch_reqs]
      rfl
    · by_cases h2 : p.trajectory_type = "SINE_WAVE"
      · rw [update_sineKind T p dt en h2 ha, sineWaveBranch_reqs]
        rfl
      · by_cases h3 : p.trajectory_type = "BOOMERANG"
        · rw [update_boomerangKind T p dt en h3 ha, boomerangBranch_reqs]
          rfl
        · by_cases h4 : p.trajectory_type = "CHAIN"
          · rw [update_chainKind T p dt en h4 ha, chainBranch_reqs]
            rfl
          · by_cases h5 : p.trajectory_type = "PIERCING"
            · rw [update_piercingKind T p dt en h5 ha, piercingBranch_reqs]
              rfl
            · by_cases h6 : p.trajectory_type = "GROUND_AOE"
              · rw [update_groundAoeKind T p dt en h6 ha, groundAoeBranch_reqs]
                rfl
              · by_cases h7 : p.trajectory_type = "FORKING"
                · rw [update_forkingKind T p dt en h7 ha]
                  exact forkingBranch_forkInactive T
                    (commonMove T p dt en) dt en
                · by_cases h8 : p.trajectory_type = "SPIRAL"
                  · rw [update_spiralKind T p dt en h8 ha, spiralBranch_reqs]
                    rfl
                  · by_cases h9 : p.trajectory_type = "GROWING_ORB"
                    · rw [update_growingOrbKind T p dt en h9 ha,
                        growingOrbBranch_reqs]
                      rfl
                    · rw [update_otherKind T p dt en ha h1 h2 h3 h4 h5 h6
                        h7 h8 h9]
                      rfl
  · rw [update_notActive T p dt en (by simpa using ha)]
    rfl

theorem managerPass_nil (T : TrigModel) (sd : List (String × SpellDef))
    (dt : ℚ) (en : List Enemy) :
    managerPass T sd dt [] en = ([], en, []) := rfl

theorem managerPass_cons (T : TrigModel) (sd : List (String × SpellDef))
    (dt : ℚ) (p : Projectile) (rest : List Projectile) (en : List Enemy) :
    managerPass T sd dt (p :: rest) en =
      ((if (p.update T dt en).1.active then [(p.update T dt en).1] else [])
         ++ (managerPass T sd dt rest (p.update T dt en).2.1).1,
       (managerPass T sd dt rest (p.update T dt en).2.1).2.1,
       (match (p.update T dt en).2.2 with
        | none => []
        | some reqs => reqs.filterMap (buildChild T sd))
         ++ (managerPass T sd dt rest (p.update T dt en).2.1).2.2) := rfl

theorem updateAllSpec_cons (T : TrigModel) (dt : ℚ) (p : Projectile)
    (rest : List Projectile) (en : List Enemy) :
    updateAllSpec T dt (p :: rest) en =
      (((p.update T dt en).1, (p.update T dt en).2.2)
         :: (updateAllSpec T dt rest (p.update T dt en).2.1).1,
       (updateAllSpec T dt rest (p.update T dt en).2.1).2) := rfl

/-- The per-projectile pass computes exactly the specification shape: the
filtered survivors of a full update pass, the threaded enemy list, and the
children built from all requests of the pass, in pass order. -/
theorem managerPass_spec (T : TrigModel) (sd : List (String × SpellDef))
    (dt : ℚ) (projs : List Projectile) :
    ∀ en : List Enemy,
    managerPass T sd dt projs en =
      (((updateAllSpec T dt projs en).1.map Prod.fst).filter
          (fun p => p.active),
       (updateAllSpec T dt projs en).2,
       ((updateAllSpec T dt projs en).1.flatMap
          (fun pr => pr.2.getD [])).filterMap (buildChild T sd)) := by
  induction projs with
  | nil => intro en; rfl
  | cons p rest ih =>
    intro en
    rw [managerPass_cons, updateAllSpec_cons, ih]
    cases h2 : (p.update T dt en).2.2 <;>
      cases hactive : (p.update T dt en).1.active <;>
        simp [List.filter_cons, hactive]

/-- C5: same-frame removal/insertion ordering of `ProjectileManager.update`.
The manager's update equals the specification-shaped pass: every projectile
of the snapshot is updated exactly once; the survivors are exactly the
projectiles still active after their own update (so a parent that forked —
which always deactivates itself, second conjunct — is absent from the
returned set); and the children are built from the spell-template lookup and
appended strictly after the per-projectile pass, never updated within the
same call. -/
theorem C5_manager_same_frame_ordering (T : TrigModel)
    (sd : List (String × SpellDef)) (projs : List Projectile) (dt : ℚ)
    (en : List Enemy) :
    managerUpdate T sd projs dt en = managerUpdateSpec T sd projs dt en ∧
    ∀ p : Projectile,
      ((p.update T dt en).2.2.isSome && (p.update T dt en).1.active)
        = false := by
  constructor
  · unfold managerUpdate managerUpdateSpec
    rw [managerPass_spec T sd dt projs en]
  · intro p
    exact update_forkInactive T p dt en

/-! ## Claim C6: forking fan-out -/

/-- One update of a not-yet-forked FORKING projectile with the DISTANCE
trigger still below its threshold after the move: plain movement, no
children. -/
theorem update_forkingBelow (T : TrigModel) (p : Projectile) (dt : ℚ)
    (en : List Enemy) (hk : p.trajectory_type = "FORKING")
    (ha : p.active = true) (hnf : p.has_forked = false)
    (hcond : p.fork_condition_type = "DISTANCE")
    (hd : p.distance_traveled + p.speed * dt < p.fork_condition_value) :
    p.update T dt en = (moveStep p dt, en, none) := by
  rw [update_forkingKind T p dt en hk ha, commonMove_forking T p dt en hk]
  unfold forkingBranch
  dsimp only
  have hF : (moveStep p dt).has_forked = false := hnf
  have hT : ¬((moveStep p dt).fork_condition_type = "TIMER") := by
    show ¬(p.fork_condition_type = "TIMER")
    rw [hcond]
    decide
  have hOF : ¬((moveStep p dt).fork_condition_type = "ON_FIRST_HIT" ∧
      (moveStep p dt).fork_now_on_hit_signal = true) := by
    intro hcontra
    have h1 := hcontra.1
    rw [show (moveStep p dt).fork_condition_type = p.fork_condition_type
      from rfl, hcond] at h1
    exact absurd h1 (by decide)
  have hD : (moveStep p dt).fork_condition_type = "DISTANCE" := hcond
  have hfn : decide ((moveStep p dt).distance_traveled
      ≥ (moveStep p dt).fork_condition_value) = false := by
    apply decide_eq_false
    rw [moveStep_dist, show (moveStep p dt).fork_condition_value
      = p.fork_condition_value from rfl]
    exact not_le.mpr hd
  simp only [if_pos hF, if_neg hT, if_neg hOF, if_pos hD, hfn]

/-- One update of a not-yet-forked FORKING projectile whose DISTANCE trigger
fires after the move, with a configured child spell: the parent deactivates
and emits `fork_count` spawn requests fanned across the spread angle. -/
theorem update_forkingFires (T : TrigModel) (p : Projectile) (dt : ℚ)
    (en : List Enemy) (hk : p.trajectory_type = "FORKING")
    (ha : p.active = true) (hnf : p.has_forked = false)
    (hcond : p.fork_condition_type = "DISTANCE") (cid : String)
    (hchild : p.child_spell_id = some cid)
    (hd : p.distance_traveled + p.speed * dt ≥ p.fork_condition_value) :
    p.update T dt en =
      ({ moveStep p dt with has_forked := true, active := false }, en,
       some ((List.range p.fork_count).map (fun i =>
         { owner := p.owner, spell_id := cid,
           start_x := (moveStep p dt).x, start_y := (moveStep p dt).y,
           angle := T.atan2 p.dy p.dx +
             (if 1 < p.fork_count then -(p.fork_angle_spread_rad / 2)
              else 0) +
             (i : ℚ) * (if p.fork_count = 1 then 0
               else p.fork_angle_spread_rad
                 / ((p.fork_count : ℚ) - 1)) }))) := by
  rw [update_forkingKind T p dt en hk ha, commonMove_forking T p dt en hk]
  unfold forkingBranch
  dsimp only
  have hF : (moveStep p dt).has_forked = false := hnf
  have hT : ¬((moveStep p dt).fork_condition_type = "TIMER") := by
    show ¬(p.fork_condition_type = "TIMER")
    rw [hcond]
    decide
  have hOF : ¬((moveStep p dt).fork_condition_type = "ON_FIRST_HIT" ∧
      (moveStep p dt).fork_now_on_hit_signal = true) := by
    intro hcontra
    have h1 := hcontra.1
    rw [show (moveStep p dt).fork_condition_type = p.fork_condition_type
      from rfl, hcond] at h1
    exact absurd h1 (by decide)
  have hD : (moveStep p dt).fork_condition_type = "DISTANCE" := hcond
  have hfn : decide ((moveStep p dt).distance_traveled
      ≥ (moveStep p dt).fork_condition_value) = true := by
    apply decide_eq_true
    rw [moveStep_dist, show (moveStep p dt).fork_condition_value
      = p.fork_condition_value from rfl]
    exact hd
  have hC : (moveStep p dt).child_spell_id = some cid := hchild
  simp only [if_pos hF, if_neg hT, if_neg hOF, if_pos hD, hfn, hC]
  rfl

/-- Invariant carried between updates of the concrete 3-way fork scenario:
a FORKING projectile with the DISTANCE trigger at threshold 150, child spell
"child", fork_count 3, 60-degree spread, speed 100, heading (1,0), whose
distance accumulator equals `100 * t` after `t` simulated seconds. -/
def forkInv (T : TrigModel) (q : Projectile) (t : ℚ) : Prop :=
  q.trajectory_type = "FORKING" ∧ q.active = true ∧ q.has_forked = false ∧
  q.fork_condition_type = "DISTANCE" ∧ q.child_spell_id = some "child" ∧
  q.fork_count = 3 ∧ q.fork_angle_spread_rad = 60 * T.pi / 180 ∧
  q.speed = 100 ∧ q.fork_condition_value = 150 ∧ q.dx = 1 ∧ q.dy = 0 ∧
  q.distance_traveled = 100 * t

/-- Folding further update steps over an inactive projectile changes
nothing: every update is a no-op and no requests are collected. -/
theorem collectFold_notActive (T : TrigModel)
    (steps : List (ℚ × List Enemy)) :
    ∀ (q : Projectile) (acc : List ChildReq), q.active = false →
    steps.foldl (fun st s =>
      let r := st.1.update T s.1 s.2
      (r.1, st.2 ++ (r.2.2.getD []))) (q, acc) = (q, acc) := by
  induction steps with
  | nil => intro q acc h; rfl
  | cons s rest ih =>
    intro q acc h
    rw [List.foldl_cons]
    dsimp only
    simp only [update_notActive T q s.1 s.2 h, Option.getD_none,
      List.append_nil]
    exact ih q acc h

/-- Main induction for the 3-way fork scenario: from any state satisfying
`forkInv` at time `t < 1.5`, running nonnegative steps whose durations sum
to the remaining `1.5 - t` ends with an inactive projectile and appends
exactly the three fan requests at -30, 0 and +30 degrees around the
heading's `atan2` angle. -/
theorem forkRunAux (T : TrigModel) :
    ∀ (steps : List (ℚ × List Enemy)), (∀ s ∈ steps, 0 ≤ s.1) →
    ∀ (q : Projectile) (t : ℚ) (acc : List ChildReq),
    forkInv T q t → t < 3/2 → t + (steps.map Prod.fst).sum = 3/2 →
    (steps.foldl (fun st s =>
      let r := st.1.update T s.1 s.2
      (r.1, st.2 ++ (r.2.2.getD []))) (q, acc)).1.active = false ∧
    ((steps.foldl (fun st s =>
      let r := st.1.update T s.1 s.2
      (r.1, st.2 ++ (r.2.2.getD []))) (q, acc)).2.map (fun k => k.angle)
        = acc.map (fun k => k.angle) ++
          [T.atan2 0 1 - 60 * T.pi / 180 / 2,
           T.atan2 0 1,
           T.atan2 0 1 + 60 * T.pi / 180 / 2]) := by
  intro steps
  induction steps with
  | nil =>
    intro _ q t acc hInv ht hsum
    exfalso
    simp only [List.map_nil, List.sum_nil, add_zero] at hsum
    rw [hsum] at ht
    exact absurd ht (by norm_num)
  | cons s rest ih =>
    intro hnn q t acc hInv ht hsum
    obtain ⟨hk, ha, hnf, hcond, hchild, hcount, hspread, hspeed, hval,
      hdx, hdy, hdist⟩ := hInv
    simp only [List.map_cons, List.sum_cons] at hsum
    have hrest : 0 ≤ (rest.map Prod.fst).sum := by
      apply List.sum_nonneg
      intro x hx
      obtain ⟨y, hy, rfl⟩ := List.mem_map.mp hx
      exact hnn y (List.mem_cons_of_mem _ hy)
    have hs0 : 0 ≤ s.1 := hnn s (List.mem_cons_self s rest)
    rw [List.foldl_cons]
    dsimp only
    by_cases hb : t + s.1 < 3/2
    · have hupd : q.update T s.1 s.2 = (moveStep q s.1, s.2, none) :=
        update_forkingBelow T q s.1 s.2 hk ha hnf hcond
          (by rw [hdist, hspeed, hval]; linarith)
      simp only [hupd, Option.getD_none, List.append_nil]
      refine ih (fun x hx => hnn x (List.mem_cons_of_mem _ hx))
        (moveStep q s.1) (t + s.1) acc
        ⟨hk, ha, hnf, hcond, hchild, hcount, hspread, hspeed, hval,
         hdx, hdy, ?_⟩ hb (by linarith)
      rw [moveStep_dist, hdist, hspeed]
      ring
    · have hts : t + s.1 = 3/2 := by linarith
      have hupd := update_forkingFires T q s.1 s.2 hk ha hnf hcond
        "child" hchild (by rw [hdist, hspeed, hval]; linarith)
      simp only [hupd, Option.getD_some]
      rw [collectFold_notActive T rest _ _ rfl]
      refine ⟨rfl, ?_⟩
      rw [hcount]
      simp only [show List.range 3 = [0, 1, 2] from rfl, List.map_cons,
        List.map_nil, List.map_append]
      rw [hdx, hdy, hspread]
      norm_num
      exact ⟨by ring, by ring⟩

/-- A concrete FORKING projectile: DISTANCE trigger at 150, fork_count 3,
60-degree spread, child spell "child", start (0,0), heading (1,0),
speed 100, range 200. -/
def pForkT (T : TrigModel) : Projectile :=
  Projectile.init T none 0 0 1 0 10 100 200 "spell"
    { type_ := some "FORKING", fork_condition_value := some 150,
      fork_count := some 3, fork_angle_spread := some 60,
      child_spell_id := some "child" }

/-- The same fork scenario with `fork_count = 1`. -/
def pFork1T (T : TrigModel) : Projectile :=
  Projectile.init T none 0 0 1 0 10 100 200 "spell"
    { type_ := some "FORKING", fork_condition_value := some 150,
      fork_count := some 1, fork_angle_spread := some 60,
      child_spell_id := some "child" }

/-- C6: the concrete FORKING projectile (`fork_count=3`,
`fork_angle_spread=60` degrees, DISTANCE threshold 150, speed 100, heading
(1,0)) run with any sequence of nonnegative step durations summing to 1.5
simulated seconds ends inactive having emitted exactly 3 child-spawn
requests, whose headings are the base `atan2` angle of (1,0) offset by -30,
0 and +30 degrees; and the `fork_count=1` variant emits exactly one request
straight along the base angle with no offset. -/
theorem C6_fork_fan (T : TrigModel) (steps : List (ℚ × List Enemy))
    (hnn : ∀ s ∈ steps, 0 ≤ s.1)
    (hsum : (steps.map Prod.fst).sum = 3/2) :
    ((runCollect T (pForkT T) steps).1.active = false ∧
     (runCollect T (pForkT T) steps).2.map (fun k => k.angle) =
       [T.atan2 0 1 - 60 * T.pi / 180 / 2,
        T.atan2 0 1,
        T.atan2 0 1 + 60 * T.pi / 180 / 2]) ∧
    (((pFork1T T).update T (3/2) []).1.active = false ∧
     ((((pFork1T T).update T (3/2) []).2.2).getD []).map
        (fun k => k.angle) = [T.atan2 0 1]) := by
  constructor
  · have h := forkRunAux T steps hnn (pForkT T) 0 []
      ⟨rfl, rfl, rfl, rfl, rfl, rfl, rfl, rfl, rfl, rfl, rfl, by
        show (0:ℚ) = 100 * 0
        norm_num⟩
      (by norm_num) (by rw [zero_add]; exact hsum)
    unfold runCollect
    exact ⟨h.1, by rw [h.2]; simp⟩
  · have hupd := update_forkingFires T (pFork1T T) (3/2) [] rfl rfl rfl rfl
      "child" rfl (show (0:ℚ) + 100 * (3/2) ≥ 150 by norm_num)
    rw [hupd]
    refine ⟨rfl, ?_⟩
    simp only [Option.getD_some, show (pFork1T T).fork_count = 1 from rfl,
      show List.range 1 = [0] from rfl, List.map_cons, List.map_nil]
    norm_num
    rw [show (pFork1T T).dy = (0:ℚ) from rfl,
      show (pFork1T T).dx = (1:ℚ) from rfl]

/-- C6 witness: the fan theorem at the trivial trig model, with the 1.5
seconds split as one step of 1.0 and one of 0.5. -/
theorem C6_witness :
    ((runCollect T0 (pForkT T0) [(1, []), (1/2, [])]).1.active = false ∧
     (runCollect T0 (pForkT T0) [(1, []), (1/2, [])]).2.map
        (fun k => k.angle) =
       [T0.atan2 0 1 - 60 * T0.pi / 180 / 2,
        T0.atan2 0 1,
        T0.atan2 0 1 + 60 * T0.pi / 180 / 2]) ∧
    (((pFork1T T0).update T0 (3/2) []).1.active = false ∧
     ((((pFork1T T0).update T0 (3/2) []).2.2).getD []).map
        (fun k => k.angle) = [T0.atan2 0 1]) :=
  C6_fork_fan T0 [(1, []), (1/2, [])]
    (by intro s hs; fin_cases hs <;> norm_num)
    (by norm_num)

/-! ## Claim C9: CHAIN on_hit_enemy exhaustion and re-targeting -/

/-- Fold characterization of the CHAIN next-target search: any chosen target
is active, not the skipped id, strictly inside the shrinking threshold, and
the final threshold is a lower bound on the distance of every eligible
enemy. -/
theorem chainFold_char (px py : ℚ) (lastId : Option ℤ) :
    ∀ (all : List Enemy) (acc : Option Enemy × ℚ),
    (∀ u, acc.1 = some u → acc.2 = distSqTo px py u) →
    ((∀ t, (all.foldl (chainStep px py lastId) acc).1 = some t →
      ((all.foldl (chainStep px py lastId) acc).2 = distSqTo px py t ∧
       (acc.1 = some t ∨ (t ∈ all ∧ t.active = true ∧ some t.id ≠ lastId ∧
          distSqTo px py t < acc.2)))) ∧
     (all.foldl (chainStep px py lastId) acc).2 ≤ acc.2 ∧
     (∀ e ∈ all, e.active = true → some e.id ≠ lastId →
       (all.foldl (chainStep px py lastId) acc).2 ≤ distSqTo px py e)) := by
  intro all
  induction all with
  | nil =>
    intro acc hacc
    refine ⟨?_, le_refl _, ?_⟩
    · intro t ht
      exact ⟨hacc t ht, Or.inl ht⟩
    · intro e he
      exact absurd he (List.not_mem_nil e)
  | cons a rest ih =>
    intro acc hacc
    rw [List.foldl_cons]
    by_cases hskip : a.active = false ∨ some a.id = lastId
    · have hstep : chainStep px py lastId acc a = acc := by
        unfold chainStep
        rw [if_pos hskip]
      rw [hstep]
      obtain ⟨c1, c2, c3⟩ := ih acc hacc
      refine ⟨?_, c2, ?_⟩
      · intro t ht
        obtain ⟨d1, d2⟩ := c1 t ht
        refine ⟨d1, ?_⟩
        rcases d2 with h | h
        · exact Or.inl h
        · exact Or.inr ⟨List.mem_cons_of_mem a h.1, h.2⟩
      · intro e he hea hei
        rcases List.mem_cons.mp he with rfl | hmem
        · exfalso
          rcases hskip with h | h
          · rw [hea] at h
            exact absurd h (by decide)
          · exact hei h
        · exact c3 e hmem hea hei
    · have haact : a.active = true := by
        cases hact : a.active
        · exact absurd (Or.inl hact) hskip
        · rfl
      have haid : some a.id ≠ lastId := fun h => hskip (Or.inr h)
      by_cases hlt : distSqTo px py a < acc.2
      · have hstep : chainStep px py lastId acc a
            = (some a, distSqTo px py a) := by
          unfold chainStep
          rw [if_neg hskip]
          dsimp only
          rw [if_pos hlt]
        rw [hstep]
        have hainv : ∀ u, ((some a, distSqTo px py a) :
            Option Enemy × ℚ).1 = some u →
            ((some a, distSqTo px py a) : Option Enemy × ℚ).2
              = distSqTo px py u := by
          intro u hu
          cases Option.some.inj hu
          rfl
        obtain ⟨c1, c2, c3⟩ := ih (some a, distSqTo px py a) hainv
        refine ⟨?_, le_trans c2 (le_of_lt hlt), ?_⟩
        · intro t ht
          obtain ⟨d1, d2⟩ := c1 t ht
          refine ⟨d1, Or.inr ?_⟩
          rcases d2 with h | h
          · cases Option.some.inj h
            exact ⟨List.mem_cons_self a rest, haact, haid, hlt⟩
          · exact ⟨List.mem_cons_of_mem a h.1, h.2.1, h.2.2.1,
              lt_trans h.2.2.2 hlt⟩
        · intro e he hea hei
          rcases List.mem_cons.mp he with rfl | hmem
          · exact c2
          · exact c3 e hmem hea hei
      · have hstep : chainStep px py lastId acc a = acc := by
          unfold chainStep
          rw [if_neg hskip]
          dsimp only
          rw [if_neg hlt]
        rw [hstep]
        obtain ⟨c1, c2, c3⟩ := ih acc hacc
        refine ⟨?_, c2, ?_⟩
        · intro t ht
          obtain ⟨d1, d2⟩ := c1 t ht
          refine ⟨d1, ?_⟩
          rcases d2 with h | h
          · exact Or.inl h
          · exact Or.inr ⟨List.mem_cons_of_mem a h.1, h.2⟩
        · intro e he hea hei
          rcases List.mem_cons.mp he with rfl | hmem
          · exact le_trans c2 (not_lt.mp hlt)
          · exact c3 e hmem hea hei

/-- If no eligible enemy lies strictly inside the threshold, the CHAIN
search fold never moves off its accumulator. -/
theorem chainFold_none (px py : ℚ) (lastId : Option ℤ) :
    ∀ (all : List Enemy) (acc : Option Enemy × ℚ),
    (∀ e ∈ all, e.active = true → some e.id ≠ lastId →
      ¬(distSqTo px py e < acc.2)) →
    all.foldl (chainStep px py lastId) acc = acc := by
  intro all
  induction all with
  | nil =>
    intro acc _
    rfl
  | cons a rest ih =>
    intro acc h
    rw [List.foldl_cons]
    have hstep : chainStep px py lastId acc a = acc := by
      unfold chainStep
      by_cases hskip : a.active = false ∨ some a.id = lastId
      · rw [if_pos hskip]
      · have haact : a.active = true := by
          cases hact : a.active
          · exact absurd (Or.inl hact) hskip
          · rfl
        have hnlt := h a (List.mem_cons_self a rest) haact
          (fun hh => hskip (Or.inr hh))
        rw [if_neg hskip]
        dsimp only
        rw [if_neg hnlt]
    rw [hstep]
    exact ih acc (fun e he => h e (List.mem_cons_of_mem a he))

/-- If the accumulator already holds a candidate, or some eligible enemy
lies strictly inside the current threshold, the CHAIN search fold ends with
a candidate. -/
theorem chainFold_progress (px py : ℚ) (lastId : Option ℤ) :
    ∀ (all : List Enemy) (acc : Option Enemy × ℚ),
    ((∃ u, acc.1 = some u) ∨ ∃ e ∈ all, e.active = true ∧
      some e.id ≠ lastId ∧ distSqTo px py e < acc.2) →
    ∃ t, (all.foldl (chainStep px py lastId) acc).1 = some t := by
  intro all
  induction all with
  | nil =>
    intro acc h
    rcases h with ⟨u, hu⟩ | ⟨e, he, _⟩
    · exact ⟨u, hu⟩
    · exact absurd he (List.not_mem_nil e)
  | cons a rest ih =>
    intro acc h
    rw [List.foldl_cons]
    apply ih
    by_cases hskip : a.active = false ∨ some a.id = lastId
    · have hstep : chainStep px py lastId acc a = acc := by
        unfold chainStep
        rw [if_pos hskip]
      rw [hstep]
      rcases h with hl | ⟨e, he, h1, h2, h3⟩
      · exact Or.inl hl
      · rcases List.mem_cons.mp he with rfl | hmem
        · exfalso
          rcases hskip with hh | hh
          · rw [h1] at hh
            exact absurd hh (by decide)
          · exact h2 hh
        · exact Or.inr ⟨e, hmem, h1, h2, h3⟩
    · by_cases hlt : distSqTo px py a < acc.2
      · have hstep : chainStep px py lastId acc a
            = (some a, distSqTo px py a) := by
          unfold chainStep
          rw [if_neg hskip]
          dsimp only
          rw [if_pos hlt]
        rw [hstep]
        exact Or.inl ⟨a, rfl⟩
      · have hstep : chainStep px py lastId acc a = acc := by
          unfold chainStep
          rw [if_neg hskip]
          dsimp only
          rw [if_neg hlt]
        rw [hstep]
        rcases h with hl | ⟨e, he, h1, h2, h3⟩
        · exact Or.inl hl
        · rcases List.mem_cons.mp he with rfl | hmem
          · exact absurd h3 hlt
          · exact Or.inr ⟨e, hmem, h1, h2, h3⟩

/-- CHAIN `on_hit_enemy` when the incremented chain count reaches the
budget: record the hit and deactivate, without searching for a target. -/
theorem onHit_chain_exhaust (T : TrigModel) (p : Projectile) (e : Enemy)
    (all : List Enemy) (hk : p.trajectory_type = "CHAIN")
    (hm : p.chain_count + 1 ≥ p.max_chains) :
    p.onHitEnemy T e all =
      { p with
        chain_count := p.chain_count + 1,
        last_hit_enemy_id := some e.id,
        active := false } := by
  unfold Projectile.onHitEnemy
  rw [if_pos hk]
  dsimp only
  rw [if_pos hm]

/-- CHAIN `on_hit_enemy` below budget with no next target found: record the
hit and deactivate. -/
theorem onHit_chain_noTarget (T : TrigModel) (p : Projectile) (e : Enemy)
    (all : List Enemy) (hk : p.trajectory_type = "CHAIN")
    (hm : ¬(p.chain_count + 1 ≥ p.max_chains))
    (hnone : chainNextTarget p.x p.y (some e.id) p.chain_radius_sq all
      = none) :
    p.onHitEnemy T e all =
      { p with
        chain_count := p.chain_count + 1,
        last_hit_enemy_id := some e.id,
        active := false } := by
  unfold Projectile.onHitEnemy
  rw [if_pos hk]
  dsimp only
  rw [if_neg hm, hnone]

/-- CHAIN `on_hit_enemy` below budget with a next target found: record the
hit, re-aim at the target when its position differs (guarded by the square
root being positive) and reset the distance accumulator. -/
theorem onHit_chain_target (T : TrigModel) (p : Projectile) (e : Enemy)
    (all : List Enemy) (t : Enemy) (hk : p.trajectory_type = "CHAIN")
    (hm : ¬(p.chain_count + 1 ≥ p.max_chains))
    (hsome : chainNextTarget p.x p.y (some e.id) p.chain_radius_sq all
      = some t) :
    p.onHitEnemy T e all =
      (if 0 < T.sqrt (((t.rect.centerx : ℚ) - p.x) ^ 2
          + ((t.rect.centery : ℚ) - p.y) ^ 2) then
        { p with
          chain_count := p.chain_count + 1,
          last_hit_enemy_id := some e.id,
          dx := ((t.rect.centerx : ℚ) - p.x)
            / T.sqrt (((t.rect.centerx : ℚ) - p.x) ^ 2
              + ((t.rect.centery : ℚ) - p.y) ^ 2),
          dy := ((t.rect.centery : ℚ) - p.y)
            / T.sqrt (((t.rect.centerx : ℚ) - p.x) ^ 2
              + ((t.rect.centery : ℚ) - p.y) ^ 2),
          distance_traveled := 0 }
      else
        { p with
          chain_count := p.chain_count + 1,
          last_hit_enemy_id := some e.id,
          distance_traveled := 0 }) := by
  unfold Projectile.onHitEnemy
  rw [if_pos hk]
  dsimp only
  rw [if_neg hm, hsome]
  dsimp only
  split <;> rfl

/-- C9: CHAIN `on_hit_enemy` with a budget of `max_chains = 3`.  (a) The
third recorded hit deactivates the projectile regardless of the enemy list.
(b) On an earlier hit, if no active enemy other than the one just struck
lies strictly within the chain radius, the projectile deactivates
immediately.  (c) Otherwise the search returns a target that is active, is
not the struck enemy, lies strictly within the chain radius and is nearest
among all such enemies; the hit is recorded, the distance accumulator
resets to 0, the projectile stays active, and (whenever the target's center
differs from the projectile position, so that the square root of the
squared distance is positive) the direction re-aims along the normalized
vector to the target; moreover an eligible enemy in range guarantees that a
target is found. -/
theorem C9_chain_exhaustion_and_retarget (T : TrigModel) (p : Projectile)
    (e : Enemy) (all : List Enemy) (hk : p.trajectory_type = "CHAIN")
    (hmax : p.max_chains = 3) :
    (p.chain_count = 2 → (p.onHitEnemy T e all).active = false) ∧
    (p.chain_count = 0 ∨ p.chain_count = 1 →
      (∀ e' ∈ all, e'.active = true → e'.id ≠ e.id →
        ¬(distSqTo p.x p.y e' < p.chain_radius_sq)) →
      (p.onHitEnemy T e all).active = false) ∧
    (p.chain_count = 0 ∨ p.chain_count = 1 →
      (∀ t, chainNextTarget p.x p.y (some e.id) p.chain_radius_sq all
          = some t →
        t ∈ all ∧ t.active = true ∧ t.id ≠ e.id ∧
        distSqTo p.x p.y t < p.chain_radius_sq ∧
        (∀ e' ∈ all, e'.active = true → e'.id ≠ e.id →
          distSqTo p.x p.y t ≤ distSqTo p.x p.y e') ∧
        (p.onHitEnemy T e all).distance_traveled = 0 ∧
        (p.onHitEnemy T e all).active = p.active ∧
        (p.onHitEnemy T e all).chain_count = p.chain_count + 1 ∧
        (0 < ((t.rect.centerx : ℚ) - p.x) ^ 2
            + ((t.rect.centery : ℚ) - p.y) ^ 2 →
          (p.onHitEnemy T e all).dx = ((t.rect.centerx : ℚ) - p.x)
              / T.sqrt (((t.rect.centerx : ℚ) - p.x) ^ 2
                + ((t.rect.centery : ℚ) - p.y) ^ 2) ∧
          (p.onHitEnemy T e all).dy = ((t.rect.centery : ℚ) - p.y)
              / T.sqrt (((t.rect.centerx : ℚ) - p.x) ^ 2
                + ((t.rect.centery : ℚ) - p.y) ^ 2))) ∧
      ((∃ e' ∈ all, e'.active = true ∧ e'.id ≠ e.id ∧
          distSqTo p.x p.y e' < p.chain_radius_sq) →
        ∃ t', chainNextTarget p.x p.y (some e.id) p.chain_radius_sq all
          = some t')) := by
  refine ⟨?_, ?_, ?_⟩
  · intro hc2
    rw [onHit_chain_exhaust T p e all hk (by rw [hc2, hmax])]
  · intro hc hb
    have hm : ¬(p.chain_count + 1 ≥ p.max_chains) := by
      rcases hc with h | h <;> rw [h, hmax] <;> decide
    have hfold := chainFold_none p.x p.y (some e.id) all
      (none, p.chain_radius_sq)
      (fun e' he' ha hs =>
        hb e' he' ha (fun heq => hs (by rw [heq])))
    have hnone : chainNextTarget p.x p.y (some e.id) p.chain_radius_sq all
        = none := by
      unfold chainNextTarget
      rw [hfold]
    rw [onHit_chain_noTarget T p e all hk hm hnone]
  · intro hc
    have hm : ¬(p.chain_count + 1 ≥ p.max_chains) := by
      rcases hc with h | h <;> rw [h, hmax] <;> decide
    constructor
    · intro t hsome
      have hchar := chainFold_char p.x p.y (some e.id) all
        (none, p.chain_radius_sq) (fun u hu => Option.noConfusion hu)
      obtain ⟨d1, d2⟩ := hchar.1 t hsome
      rcases d2 with h | h
      · exact Option.noConfusion h
      obtain ⟨hmem, hact, hsid, hlt⟩ := h
      have hid : t.id ≠ e.id := fun hh => hsid (by rw [hh])
      have hmin : ∀ e' ∈ all, e'.active = true → e'.id ≠ e.id →
          distSqTo p.x p.y t ≤ distSqTo p.x p.y e' := by
        intro e' he' ha hi
        have := hchar.2.2 e' he' ha (fun heq => hi (Option.some.inj heq))
        rw [d1] at this
        exact this
      rw [onHit_chain_target T p e all t hk hm hsome]
      refine ⟨hmem, hact, hid, hlt, hmin, by split <;> rfl,
        by split <;> rfl, by split <;> rfl, ?_⟩
      intro hpos
      have hmag := T.sqrt_pos _ hpos
      rw [if_pos hmag]
      exact ⟨rfl, rfl⟩
    · intro hex
      obtain ⟨e', he', ha, hi, hlt⟩ := hex
      have := chainFold_progress p.x p.y (some e.id) all
        (none, p.chain_radius_sq)
        (Or.inr ⟨e', he', ha,
          (fun heq => hi (Option.some.inj heq)), hlt⟩)
      obtain ⟨t', ht'⟩ := this
      exact ⟨t', ht'⟩

/-- A concrete CHAIN projectile at the origin: chain radius 150 (default
budget `max_chains = 3`), heading (1,0), speed 100. -/
def pChain : Projectile :=
  Projectile.init T0 none 0 0 1 0 10 100 200 "spell"
    { type_ := some "CHAIN", chain_radius := some 150 }

/-- An active enemy with id 4 centered at (30, 40). -/
def eD : Enemy := ⟨4, true, ⟨25, 35, 10, 10⟩, 60⟩

/-- C9 witness: the chain theorem at concrete inputs — a third recorded hit
deactivates even with an enemy remaining, and an early hit with no other
enemy at all deactivates immediately. -/
theorem C9_witness :
    (Projectile.onHitEnemy T0 { pChain with chain_count := 2 } eA
        [eD]).active = false ∧
    (pChain.onHitEnemy T0 eA []).active = false :=
  ⟨(C9_chain_exhaustion_and_retarget T0 { pChain with chain_count := 2 }
      eA [eD] rfl rfl).1 rfl,
   (C9_chain_exhaustion_and_retarget T0 pChain eA [] rfl rfl).2.1
     (Or.inl rfl) (fun e' h => absurd h (List.not_mem_nil e'))⟩

/-! ## Claim C10: re-reported collisions for already-pierced enemies -/

/-- C10: a PIERCING projectile still overlapping an enemy whose id is
already in its hit set.  `check_enemy_collisions` appends a fresh
`(enemy id, projectile index, damage)` triple for the pair even though
`on_hit_enemy` is a no-op for it: the projectile comes back unchanged (no
pierce slot consumed, still active), so a repeated call on the returned
state reports the very same damage triple again. -/
theorem C10_piercing_repeat_report (T : TrigModel) (p : Projectile)
    (e : Enemy) (idx : ℕ) (hk : p.trajectory_type = "PIERCING")
    (ha : p.active = true) (hmem : e.id ∈ p.hit_enemy_ids)
    (hcol : p.rect.collide e.rect = true) :
    checkEnemyCollisions T [e] [p] idx
      = ([(e.id, idx, p.damage)], [p]) ∧
    checkEnemyCollisions T [e] (checkEnemyCollisions T [e] [p] idx).2 idx
      = ([(e.id, idx, p.damage)], [p]) := by
  have hp' : p.onHitEnemy T e [e] = p := onHit_piercing_mem T p e [e] hk hmem
  have hfil : [e].filter (fun x => p.rect.collide x.rect) = [e] := by
    simp [hcol]
  have hcond : ¬(p.active = false) := by
    simp [ha]
  have main : checkEnemyCollisions T [e] [p] idx
      = ([(e.id, idx, p.damage)], [p]) := by
    show ((hitLoop T idx [e] p
        ([e].filter (fun x => p.rect.collide x.rect))).1
          ++ (checkEnemyCollisions T [e] [] (idx + 1)).1,
      (hitLoop T idx [e] p
        ([e].filter (fun x => p.rect.collide x.rect))).2
          :: (checkEnemyCollisions T [e] [] (idx + 1)).2)
      = ([(e.id, idx, p.damage)], [p])
    rw [hfil]
    have hl : hitLoop T idx [e] p [e]
        = (if (p.onHitEnemy T e [e]).active = false
           then ([(e.id, idx, p.damage)], p.onHitEnemy T e [e])
           else ((e.id, idx, p.damage)
              :: (hitLoop T idx [e] (p.onHitEnemy T e [e]) []).1,
             (hitLoop T idx [e] (p.onHitEnemy T e [e]) []).2)) := rfl
    rw [hl, hp', if_neg hcond]
    rfl
  exact ⟨main, by rw [main]; exact main⟩

/-- A concrete PIERCING projectile that has already recorded a hit on enemy
id 1 (one pierce slot of three consumed), still active, sitting on the
origin. -/
def pPierceHit : Projectile :=
  { owner := none, x := 0, y := 0, dx := 1, dy := 0, damage := 10,
    speed := 100, range_ := 200, projectile_type := "s",
    props := { type_ := some "PIERCING" },
    trajectory_type := "PIERCING", rect := ⟨-5, -5, 10, 10⟩,
    pierce_count := 3, hit_enemies_count := 1, hit_enemy_ids := {1} }

/-- C10 witness: the repeat-report theorem at a concrete overlap of
`pPierceHit` with the already-recorded enemy id 1: two consecutive calls
both report the damage triple and leave the projectile unchanged. -/
theorem C10_witness :
    checkEnemyCollisions T0 [eA] [pPierceHit] 0
      = ([((1:ℤ), (0:ℕ), (10:ℚ))], [pPierceHit]) ∧
    checkEnemyCollisions T0 [eA]
        (checkEnemyCollisions T0 [eA] [pPierceHit] 0).2 0
      = ([((1:ℤ), (0:ℕ), (10:ℚ))], [pPierceHit]) :=
  C10_piercing_repeat_report T0 pPierceHit eA 0 rfl rfl (by decide)
    (by decide)
